import Mathlib

set_option linter.unusedVariables false
set_option maxRecDepth 8000

/-!
Shallow embedding of `src/salt/states/git.py`.

The `latest` state function and `config_set` are modelled as pure functions
over an oracle (`World` / `CfgWorld`) that fixes the answer of every
read-only collaborator query (`__salt__[...]` git-module calls, `os.path`
checks) for one invocation, together with an explicit trace of the mutating
collaborator operations the run invokes (`Event`).  The dry-run flag
(`__opts__[test]`) is an explicit boolean argument.

Out-of-source collaborators (`salt.utils.url.add_http_basic_auth`,
`salt.utils.url.redact_http_basic_auth`) are modelled from the spec and say
so in their doc comments.  The `user`, `identity`, `onlyif` / `unless` and
deprecated keyword arguments are modelled as absent (their defaults), and the
regex matching of raw `git fetch` output lines is treated as collaborator
output parsing (out of scope per the spec) whose per-line result the oracle
supplies.  Exceptions raised by `checkout` / `reset` / `merge` / `branch` /
`submodule` / `remote_set` themselves are not modelled (the source converts
any of them to a failure at lines 1183-1192); `fetch` and `clone` failures,
which have dedicated handling, are modelled.
-/

namespace GitState

/-- Python tri-valued `result` field of a state return: `True` / `False` / `None`. -/
inductive RVal where
  | rtrue
  | rfalse
  | rnone
deriving DecidableEq

/-- A Python value restricted to `None` / `False` / `str`, the values taken by
the `upstream` and `desired_upstream` variables in `latest`. -/
inductive PyStr where
  | pnone
  | pfalse
  | pstr (s : String)
deriving DecidableEq

/-- Python truthiness of a `PyStr` value (a nonempty string is truthy). -/
def PyStr.truthy : PyStr → Bool
  | .pstr s => !s.data.isEmpty
  | _ => false

/-- The string carried by a `PyStr` (`""` for `None` / `False`; only read on
branches where the source knows the value is a string). -/
def PyStr.str : PyStr → String
  | .pstr s => s
  | _ => ""

/-- `remote_rev_type` values (the strings `branch` / `tag` / `sha1` in the source). -/
inductive RType where
  | branch
  | tag
  | sha1
deriving DecidableEq

/-- Outcome of the remote-revision resolution block (src lines 525-566):
`remote_rev`, `remote_rev_type`, `desired_upstream`, `head_ref` and the
(possibly lower-cased) `rev`.  Variables the source leaves unbound on a given
path are `none` / `pnone`; no later code observes them on those paths. -/
structure Resolved where
  remoteRev : Option String
  remoteRevType : Option RType
  desiredUpstream : PyStr
  headRef : Option String
  rev : String
deriving DecidableEq

/-- A mutating collaborator operation invoked by a run. -/
inductive Event where
  | remoteSet
  | fetch
  | checkout
  | reset
  | merge
  | branchOp
  | submodule
  | rmRf
  | clone
deriving DecidableEq

/-- One line of `git fetch` output after the regex match of `_parse_fetch`
(src 72-75); the regex itself is collaborator output parsing, supplied by the
oracle. -/
inductive FetchLine where
  | upd (oldSha newSha refName : String)
  | newRef (refType : String) (refName : String)
  | tagUpdate (refName : String)
deriving DecidableEq

/-- The dict built by `_parse_fetch` (src 68-96). -/
structure FetchDict where
  newTags : List String := []
  newBranches : List String := []
  updatedBranches : List (String × String × String) := []
  updatedTags : List String := []
deriving DecidableEq

/-- Python truthiness of the `_parse_fetch` dict: any key present. -/
def FetchDict.truthy (d : FetchDict) : Bool :=
  !d.newTags.isEmpty || !d.newBranches.isEmpty ||
    !d.updatedBranches.isEmpty || !d.updatedTags.isEmpty

/-- The `ret[changes]` dict of `latest`, one field per key the source can
set; `none` / `false` means the key is absent (the source only ever stores
`True` under the boolean keys). -/
structure Changes where
  remotes : Option (String × Option String × String) := none
  revision : Option (Option String × Option String) := none
  forcedUpdate : Bool := false
  hardReset : Bool := false
  localBranch : Option (Option String × Option String) := none
  upstream : Option (PyStr × PyStr) := none
  fetch : Option FetchDict := none
  newClone : Option String := none
  forcedClone : Bool := false
deriving DecidableEq

/-- Python truthiness of the changes dict: some key is present. -/
def Changes.isEmpty (c : Changes) : Bool :=
  c.remotes = none && c.revision = none && !c.forcedUpdate && !c.hardReset &&
    c.localBranch = none && c.upstream = none && c.fetch = none &&
    c.newClone = none && !c.forcedClone

/-- The state return dict (`name` is constant and omitted). -/
structure StateRet where
  result : RVal
  comment : String
  changes : Changes
deriving DecidableEq

/-! ### String helpers (kernel-reduction friendly) -/

/-- `str.take` over the character list. -/
def strTake (s : String) (n : Nat) : String := String.mk (s.data.take n)

/-- `str.lower` over the character list. -/
def lowerStr (s : String) : String := String.mk (s.data.map Char.toLower)

/-- `str.startswith` over the character lists. -/
def startsWithL (s pre : String) : Bool := pre.data.isPrefixOf s.data

/-- Membership in Python `string.hexdigits`. -/
def isHexChar (c : Char) : Bool :=
  c.isDigit || ('a' ≤ c && c ≤ 'f') || ('A' ≤ c && c ≤ 'F')

/-- `sep.join` over a list of strings. -/
def joinSep (sep : String) : List String → String
  | [] => ""
  | [x] => x
  | x :: xs => x ++ sep ++ joinSep sep xs

/-- Split `cs` at the first occurrence of `pat`, returning the parts strictly
before and strictly after it. -/
def splitAtSub (pat : List Char) : List Char → Option (List Char × List Char)
  | [] => if pat.isEmpty then some ([], []) else none
  | c :: cs =>
    if pat.isPrefixOf (c :: cs) then some ([], (c :: cs).drop pat.length)
    else
      match splitAtSub pat cs with
      | some (l, r) => some (c :: l, r)
      | none => none

/-- Python truthiness of an optional string (`None` and `""` are falsy). -/
def optTruthy : Option String → Bool
  | none => false
  | some s => !s.data.isEmpty

/-- Association-list lookup (predicate form of `dict` access). -/
def lookupAssoc (l : List (String × String)) (k : String) : Option String :=
  (l.find? (fun p => p.1 == k)).map (fun p => p.2)

/-! ### Helpers of the source file -/

/-- `_short_sha` (src 54-55) composed with Python string formatting of a
possibly-`None` value: `None` renders as `"None"`. -/
def shortShaStr : Option String → String
  | none => "None"
  | some s => strTake s 7

/-- `_format_comments` (src 58-65). -/
def format_comments (comments : List String) : String :=
  joinSep ". " comments ++ (if comments.length > 1 then "." else "")

/-- `_strip_exc` (src 124-129): strip a leading `Command '...' failed: `
prefix from a collaborator error text.  The source uses a greedy regex; this
embedding strips through the first quote-delimited ` failed: ` separator,
which agrees with the regex whenever the separator occurs once. -/
def strip_exc (s : String) : String :=
  if startsWithL s "Command \x27" || startsWithL s "Command \"" then
    match splitAtSub "\x27 failed: ".data s.data with
    | some (_, r) => String.mk r
    | none =>
      match splitAtSub "\" failed: ".data s.data with
      | some (_, r) => String.mk r
      | none => s
  else s

/-- `_revs_equal` (src 35-51).  For `sha1` the second argument is the possibly
short revision and the comparison is `rev1.startswith(rev2)`. -/
def revs_equal (rev1 rev2 : Option String) (revType : Option RType) : Bool :=
  match rev1, rev2 with
  | none, none => true
  | some r1, some r2 => if revType = some RType.sha1 then startsWithL r1 r2 else r1 == r2
  | _, _ => false

/-- One step of the loop body of `_parse_fetch` (src 77-95). -/
def parse_fetchStep (d : FetchDict) : FetchLine → FetchDict
  | .newRef t ref =>
    if t = "tag" then { d with newTags := d.newTags ++ [ref] }
    else { d with newBranches := d.newBranches ++ [ref] }
  | .upd o n ref =>
    { d with updatedBranches :=
        if d.updatedBranches.any (fun p => p.1 == ref) then
          d.updatedBranches.map (fun p => if p.1 == ref then (ref, o, n) else p)
        else d.updatedBranches ++ [(ref, o, n)] }
  | .tagUpdate ref => { d with updatedTags := d.updatedTags ++ [ref] }

/-- `_parse_fetch` (src 68-96) over the pre-matched lines. -/
def parse_fetch (ls : List FetchLine) : FetchDict := ls.foldl parse_fetchStep {}

/-- `_fail` (src 149-155): result `False`, the comment carrying the changes
already made; the changes dict accumulated so far stays in the return. -/
def failRet (msg : String) (comments : List String) (changes : Changes) : StateRet :=
  { result := .rfalse
    comment :=
      if comments.isEmpty then msg
      else msg ++ "\n\nChanges already made: " ++ format_comments comments
    changes := changes }

/-- `_neutral_test` (src 143-146). -/
def neutralRet (msg : String) (changes : Changes) : StateRet :=
  { result := .rnone, comment := msg, changes := changes }

/-- `_uptodate` (src 132-140) called with a list of comment strings. -/
def uptodateL (target : String) (changes : Changes) (comments : List String) : StateRet :=
  { result := .rtrue
    comment := "Repository " ++ target ++ " is up-to-date" ++
      (if comments.isEmpty then ""
       else "\n\nChanges made: " ++ format_comments comments)
    changes := changes }

/-- `_uptodate` called with a single pre-formatted string (src 823-825, 944-946,
1160): `_format_comments` then iterates the string character-wise. -/
def uptodateS (target : String) (changes : Changes) (comments : String) : StateRet :=
  { result := .rtrue
    comment := "Repository " ++ target ++ " is up-to-date" ++
      (if comments.data.isEmpty then ""
       else "\n\nChanges made: " ++
         format_comments (comments.data.map (fun c => String.mk [c])))
    changes := changes }

/-- The message of `_not_fast_forward` (src 158-171). -/
def notFastForwardMsg (pre post : Option String) (branch localBranch : Option String) :
    String :=
  "Repository would be updated from " ++ shortShaStr pre ++ " to " ++ shortShaStr post ++
    (match branch with
     | some b => if some b ≠ localBranch
         then " (after checking out local branch \x27" ++ b ++ "\x27)" else ""
     | none => "") ++
    ", but this is not a fast-forward merge. Set \x27force_reset\x27 to True to force " ++
    "this update."

/-! ### Out-of-source URL helpers, modelled from the spec -/

/-- Modelled from the spec: `salt.utils.url.add_http_basic_auth` is outside
this repository (only `src/salt/states/git.py` is in source).  Per the spec
(DesiredState.httpsBasicAuth, section 4.4 rule 4) it embeds the optional HTTP
Basic-Auth credentials into an `https://` URL and raises for a non-https URL
when credentials are supplied (`https_only=True`). -/
def addHttpBasicAuth (url : String) (user pwd : Option String) : Except String String :=
  match user, pwd with
  | none, none => .ok url
  | u, p =>
    if startsWithL url "https://" then
      .ok ("https://" ++ u.getD "" ++ ":" ++ p.getD "" ++ "@" ++
        String.mk (url.data.drop 8))
    else .error "Basic Auth only supported for HTTPS scheme"

/-- Modelled from the spec: `salt.utils.url.redact_http_basic_auth` is outside
this repository; it replaces embedded `user:password@` credentials with
`<redacted>@` for display. -/
def redactHttpBasicAuth (url : String) : String :=
  match splitAtSub "://".data url.data with
  | none => url
  | some (scheme, rest) =>
    match splitAtSub "@".data rest with
    | none => url
    | some (_, hostPart) => String.mk scheme ++ "://<redacted>@" ++ String.mk hostPart

/-- Modelled from the spec, for the comparison C5 claims the code performs:
strip embedded credentials entirely, so that URLs differing only in their
embedded Basic-Auth credentials compare equal. -/
def stripHttpBasicAuth (url : String) : String :=
  match splitAtSub "://".data url.data with
  | none => url
  | some (scheme, rest) =>
    match splitAtSub "@".data rest with
    | none => url
    | some (_, hostPart) => String.mk scheme ++ "://" ++ String.mk hostPart

/-! ### The oracle and the arguments -/

/-- Oracle fixing every read-only collaborator answer for one invocation of
`latest`.  `revParse` answers `git.rev_parse target <arg>` before any fetch,
`revParsePostFetch` the same query after a fetch, `revParseUpstream` the
`--abbrev-ref <branch>@\x7bupstream\x7d` query; `postClone*` fields answer the
re-reads after a clone; `finalRev` answers the closing `git.revision` query.
`rmRfFail` / `cloneFail` / the `Except` results model the
`CommandExecutionError` / `OSError` texts of the fallible calls that have
dedicated handling in the source. -/
structure World where
  targetIsFile : Bool := false
  targetIsDir : Bool := false
  targetNonEmptyDir : Bool := false
  hasDotGit : Bool := false
  hasRefsDir : Bool := false
  isWorktree : Bool := false
  remoteRefsFail : Option String := none
  remoteRefs : List (String × String) := []
  gitVerGe18 : Bool := true
  localBranches : List String := []
  localTags : List String := []
  localRev : Option String := none
  localBranch : Option String := none
  revParse : String → Except String String := fun _ => .error "fatal: bad revision"
  revParseUpstream : String → Except String String := fun _ => .error "fatal: no upstream"
  remotes : List (String × String) := []
  isAncestor : String → String → Bool := fun _ _ => false
  fetchResult : Except String (List FetchLine) := .ok []
  revParsePostFetch : String → Except String String := fun _ => .error "fatal: bad revision"
  statusDirty : Bool := false
  symbolicRefHead : Bool := true
  rmRfFail : Option String := none
  cloneFail : Option String := none
  postCloneTags : List String := []
  postCloneBranches : List String := []
  postCloneRev : Option String := none
  postCloneBranch : Option String := none
  postCloneUpstream : String → Except String String := fun _ => .error "fatal: no upstream"
  finalRev : Option String := none

/-- The arguments of `latest` (src 174-194) that the embedding models; `user`,
`identity`, `onlyif` / `unless` and the deprecated keyword arguments are
modelled as absent. -/
structure Args where
  name : String := ""
  rev : String := "HEAD"
  target : String := ""
  branch : Option String := none
  forceCheckout : Bool := false
  forceClone : Bool := false
  forceFetch : Bool := false
  forceReset : Bool := false
  submodules : Bool := false
  bare : Bool := false
  mirror : Bool := false
  remote : String := "origin"
  fetchTags : Bool := true
  depth : Option Nat := none
  httpsUser : Option String := none
  httpsPass : Option String := none

/-- Facts computed by the validation prologue (src 370-523). -/
structure Prep where
  desiredFetchUrl : String
  redactedFetchUrl : String
  bare : Bool
  setUpstream : String
deriving DecidableEq

/-- Validation prologue of `latest` (src 370-523): argument checks, Basic-Auth
embedding, effective bareness, git-version flag spelling, remote-refs query. -/
def validate (a : Args) (w : World) : Except StateRet Prep :=
  if a.remote.data.isEmpty then
    .error (failRet "\x27remote\x27 argument is required" [] {})
  else if a.target.data.isEmpty then
    .error (failRet "\x27target\x27 argument is required" [] {})
  else if a.rev.data.isEmpty then
    .error (failRet ("\x27" ++ a.rev ++ "\x27 is not a valid value for the \x27rev\x27 argument") [] {})
  else if !startsWithL a.target "/" then
    .error (failRet ("target \x27" ++ a.target ++ "\x27 is not an absolute path") [] {})
  else if w.targetIsFile then
    .error (failRet ("Target \x27" ++ a.target ++ "\x27 exists and is a regular file, cannot proceed") [] {})
  else
    match addHttpBasicAuth a.name a.httpsUser a.httpsPass with
    | .error e => .error (failRet e [] {})
    | .ok dfu =>
      let bare := a.bare || a.mirror
      if a.rev ≠ "HEAD" ∧ bare then
        .error (failRet "\x27rev\x27 is not compatible with the \x27mirror\x27 and \x27bare\x27 arguments" [] {})
      else
        match w.remoteRefsFail with
        | some e => .error (failRet ("Failed to check remote refs: " ++ strip_exc e) [] {})
        | none =>
          .ok { desiredFetchUrl := dfu
                redactedFetchUrl := redactHttpBasicAuth dfu
                bare := bare
                setUpstream := if w.gitVerGe18 then "--set-upstream-to" else "--track" }

/-- Remote-revision resolution (src 525-566). -/
def resolveRemoteRev (refs : List (String × String)) (rev remote : String)
    (bare : Bool) : Resolved :=
  if bare then ⟨none, none, .pnone, none, rev⟩
  else if rev = "HEAD" then
    match lookupAssoc refs "HEAD" with
    | some sha => ⟨some sha, some .sha1, .pnone, some (remote ++ "/HEAD"), rev⟩
    | none => ⟨none, none, .pnone, none, rev⟩
  else
    match lookupAssoc refs ("refs/heads/" ++ rev) with
    | some sha => ⟨some sha, some .branch, .pstr (remote ++ "/" ++ rev), none, rev⟩
    | none =>
      match lookupAssoc refs ("refs/tags/" ++ rev ++ "^\x7b\x7d") with
      | some sha => ⟨some sha, some .tag, .pfalse, none, rev⟩
      | none =>
        match lookupAssoc refs ("refs/tags/" ++ rev) with
        | some sha => ⟨some sha, some .tag, .pfalse, none, rev⟩
        | none =>
          if rev.data.length ≤ 40 ∧ rev.data.all isHexChar then
            ⟨some (lowerStr rev), some .sha1, .pfalse, none, lowerStr rev⟩
          else ⟨none, none, .pnone, none, rev⟩

/-- Modelled from the spec, for the refinement comparison in C6: the
classification cascade exactly as the claim states it, with no special case
for `HEAD` (the claim lists only the four ref-based cases plus the hex
fallback). -/
def claimCascade (refs : List (String × String)) (rev remote : String) : Resolved :=
  match lookupAssoc refs ("refs/heads/" ++ rev) with
  | some sha => ⟨some sha, some .branch, .pstr (remote ++ "/" ++ rev), none, rev⟩
  | none =>
    match lookupAssoc refs ("refs/tags/" ++ rev ++ "^\x7b\x7d") with
    | some sha => ⟨some sha, some .tag, .pfalse, none, rev⟩
    | none =>
      match lookupAssoc refs ("refs/tags/" ++ rev) with
      | some sha => ⟨some sha, some .tag, .pfalse, none, rev⟩
      | none =>
        if rev.data.length ≤ 40 ∧ rev.data.all isHexChar then
          ⟨some (lowerStr rev), some .sha1, .pfalse, none, lowerStr rev⟩
        else ⟨none, none, .pnone, none, rev⟩

/-! ### Existing-repository path of `latest` (src 588-1207) -/

/-- Base revision and branch for comparisons (src 603-631): the local ones,
unless a different, locally existing `branch` was requested, in which case its
tip; failure of that `rev_parse` fails the state. -/
def computeBase (a : Args) (w : World) : Except String (Option String × Option String) :=
  match a.branch with
  | none => .ok (w.localRev, w.localBranch)
  | some b =>
    if some b ≠ w.localBranch ∧ b ∈ w.localBranches then
      match w.revParse (b ++ "^\x7bcommit\x7d") with
      | .ok sha => .ok (some sha, some b)
      | .error e =>
        .error ("Unable to get position of local branch \x27" ++ b ++ "\x27: " ++ strip_exc e)
    else .ok (w.localRev, w.localBranch)

/-- The message of the moved-tag failure (src 708-719). -/
def tagMovedMsg (rev : String) (remoteRev localTagSha : Option String) : String :=
  "\x27" ++ rev ++ "\x27 is a tag, but the remote SHA1 for this tag (" ++
    shortShaStr remoteRev ++ ") doesn\x27t match the local SHA1 (" ++
    shortShaStr localTagSha ++ "). Set \x27force_reset\x27 to True to force this update."

/-- `has_remote_rev` determination (src 637-721), including the immediate
failure for a locally present tag whose remote SHA moved while the moved-to
object is already present locally and `force_reset` is unset. -/
def computeHas (a : Args) (w : World) (r : Resolved) (baseRev : Option String) :
    Except StateRet Bool :=
  if decide (r.remoteRevType = some RType.sha1) &&
      (match baseRev, r.remoteRev with
       | some b, some rr => startsWithL b rr
       | _, _ => false) then .ok true
  else
    match r.remoteRev with
    | none => .ok false
    | some rr =>
      match w.revParse (rr ++ "^\x7bcommit\x7d") with
      | .error _ => .ok false
      | .ok _ =>
        match r.remoteRevType with
        | some RType.branch =>
          if (lookupAssoc w.remotes a.remote).isSome then
            match w.revParse r.desiredUpstream.str with
            | .ok localCopy => .ok (localCopy = rr)
            | .error _ => .ok false
          else .ok false
        | some RType.tag =>
          if r.rev ∈ w.localTags then
            let localTagSha := (w.revParse (r.rev ++ "^\x7bcommit\x7d")).toOption
            if localTagSha = some rr then .ok true
            else if !a.forceReset then
              .error (failRet (tagMovedMsg r.rev (some rr) localTagSha) [] {})
            else .ok false
          else .ok false
        | some RType.sha1 => .ok true
        | none => .ok false

/-- The `upstream` tracking-branch fact (src 761-781). -/
def computeUpstream (w : World) (baseBranch : Option String) : PyStr :=
  match baseBranch with
  | none => .pnone
  | some bb =>
    match w.revParseUpstream (bb ++ "@\x7bupstream\x7d") with
    | .ok u => .pstr u
    | .error _ => .pfalse

/-- The `branch_opts` / `upstream_action` selection (src 948-966, and again
1375-1393 after a clone). -/
def computeBranchOpts (upstream du : PyStr) (setUpstream : String) :
    Option (List String) × String :=
  if ¬ upstream.truthy ∧ du.truthy then
    (some [setUpstream, du.str], "Tracking branch was set to " ++ du.str)
  else if upstream.truthy ∧ du = PyStr.pfalse then
    (some ["--unset-upstream"], "Tracking branch was unset")
  else if du.truthy ∧ upstream ≠ du then
    (some [setUpstream, du.str], "Tracking branch was updated to " ++ du.str)
  else (none, "")

/-- Dry-run return taken when the remote fetch URL differs (src 792-825). -/
def urlDryRun (a : Args) (w : World) (p : Prep) (r : Resolved) (has : Bool)
    (ff : Option Bool) (mergeAction : String) (fetchUrl : Option String) : StateRet :=
  let chg : Changes :=
    { remotes := some (a.remote, fetchUrl.map redactHttpBasicAuth, p.redactedFetchUrl) }
  let actions := ["Remote \x27" ++ a.remote ++ "\x27 would be set to " ++ p.redactedFetchUrl]
  let actions := if ¬ has then actions ++ ["Remote would be fetched"] else actions
  let (chg, actions) :=
    if ¬ revs_equal w.localRev r.remoteRev r.remoteRevType then
      ({ chg with revision := some (w.localRev, r.remoteRev)
                  forcedUpdate := ff = some false },
       actions ++ ["Repository would be " ++ mergeAction ++ " to " ++ shortShaStr r.remoteRev])
    else (chg, actions)
  if ¬ chg.isEmpty then neutralRet (format_comments actions) chg
  else uptodateS a.target chg (format_comments actions)

/-- Dry-run prediction block for an existing repository with a resolved remote
revision (src 848-946). -/
def mainDryRun (a : Args) (w : World) (r : Resolved) (rr : String) (has : Bool)
    (ff : Option Bool) (mergeAction : String) (upstream : PyStr) (chg0 : Changes) :
    StateRet :=
  let chg :=
    if ¬ revs_equal w.localRev (some rr) r.remoteRevType then
      { chg0 with revision := some (w.localRev, some rr) }
    else chg0
  let actions : List String :=
    if ¬ has then ["Remote \x27" ++ a.remote ++ "\x27 would be fetched"] else []
  let (chg, actions) :=
    match a.branch with
    | some b =>
      if some b ≠ w.localBranch then
        let chg := { chg with localBranch := some (w.localBranch, some b) }
        if b ∉ w.localBranches then
          let actions := actions ++
            ["New branch \x27" ++ b ++ "\x27 would be checked out, with " ++
              (if r.desiredUpstream.truthy then r.desiredUpstream.str else r.rev) ++
              " (" ++ shortShaStr (some rr) ++ ") as a starting point"]
          let actions :=
            if r.desiredUpstream.truthy then
              actions ++ ["Tracking branch would be set to " ++ r.desiredUpstream.str]
            else actions
          (chg, actions)
        else
          let chg := if ff = some false then { chg with hardReset := true } else chg
          (chg, actions ++
            ["Branch \x27" ++ b ++ "\x27 would be checked out and " ++ mergeAction ++
              " to " ++ shortShaStr (some rr)])
      else (chg, actions)
    | none =>
      if ¬ revs_equal w.localRev (some rr) r.remoteRevType then
        if ff = some true then
          (chg, actions ++ ["Repository would be fast-forwarded from " ++
            shortShaStr w.localRev ++ " to " ++ shortShaStr (some rr)])
        else
          (chg, actions ++ ["Repository would be " ++
            (if a.forceReset ∧ has then "hard-reset" else "updated") ++ " from " ++
            shortShaStr w.localRev ++ " to " ++ shortShaStr (some rr)])
      else (chg, actions)
  let (chg, actions) :=
    if ¬ upstream.truthy ∧ r.desiredUpstream.truthy then
      ({ chg with upstream := some (upstream, r.desiredUpstream) },
       actions ++ ["Tracking branch would be set to " ++ r.desiredUpstream.str])
    else if upstream.truthy ∧ r.desiredUpstream = PyStr.pfalse then
      ({ chg with upstream := some (upstream, r.desiredUpstream) },
       actions ++ ["Tracking branch would be unset"])
    else if r.desiredUpstream.truthy ∧ upstream ≠ r.desiredUpstream then
      ({ chg with upstream := some (upstream, r.desiredUpstream) },
       actions ++ ["Tracking branch would be updated to " ++ r.desiredUpstream.str])
    else (chg, actions)
  if ¬ chg.isEmpty then neutralRet (format_comments actions) chg
  else uptodateS a.target chg (format_comments actions)

/-- Dry-run return for an existing bare repository (src 1152-1160). -/
def bareDry (a : Args) (chg0 : Changes) : StateRet :=
  let msg := "Bare repository at " ++ a.target ++ " would be fetched"
  if ¬ chg0.isEmpty then neutralRet msg chg0 else uptodateS a.target chg0 msg

/-- Fetch-if-needed phase for an existing repository (src 968-1025): fetch when
the remote revision is not known to be present, confirm it arrived, and redo
the fast-forward determination. -/
def realFetchPhase (a : Args) (w : World) (r : Resolved) (rr : String)
    (baseRev : Option String) (has : Bool) (ff : Option Bool)
    (chg0 : Changes) (cmts0 : List String) (tr0 : List Event) :
    Except (StateRet × List Event) (Option Bool × Changes × List Event) :=
  if has then .ok (ff, chg0, tr0)
  else
    match w.fetchResult with
    | .error e =>
      .error (failRet ("Fetch failed. Set \x27force_fetch\x27 to True to force the fetch " ++
        "if the failure was due to it bein non-fast-forward. Output of the fetch " ++
        "command follows:\n\n" ++ strip_exc e) cmts0 chg0, tr0 ++ [Event.fetch])
    | .ok lines =>
      let fc := parse_fetch lines
      let chg1 := if fc.truthy then { chg0 with fetch := some fc } else chg0
      let tr1 := tr0 ++ [Event.fetch]
      match w.revParsePostFetch (rr ++ "^\x7bcommit\x7d") with
      | .error e =>
        .error (failRet ("Fetch did not successfully retrieve rev " ++ r.rev ++ ": " ++ e)
          [] chg1, tr1)
      | .ok _ =>
        let ff2 : Option Bool :=
          some (match baseRev with
                | none => true
                | some b => w.isAncestor b rr)
        if ff2 = some false ∧ ¬ a.forceReset then
          .error (failRet (notFastForwardMsg baseRev (some rr) a.branch w.localBranch)
            cmts0 chg1, tr1)
        else .ok (ff2, chg1, tr1)

/-- The changes / comments / mutation-trace accumulator threaded through the
post-fetch mutation sequence. -/
abbrev Acc := Changes × List String × List Event

/-- Branch checkout step (src 1027-1060): failing on uncommitted changes
without `force_checkout`.  The format arguments at src 1031-1036 are never
applied, so the placeholder stays literal in the message, and `_fail` is
called without comments there. -/
def doCheckoutFlag (a : Args) (w : World) : Bool :=
  match a.branch with
  | some b => decide (some b ≠ w.localBranch)
  | none => false

def tailCheckout (a : Args) (w : World) (acc : Acc) :
    Except (StateRet × List Event) Acc :=
  if doCheckoutFlag a w && w.statusDirty && !a.forceCheckout then
    .error (failRet ("Local branch \x27\x7b0\x7d\x27 has uncommitted changes. " ++
      "Set \x27force_checkout\x27 to discard them and proceed.") [] acc.1, acc.2.2)
  else if doCheckoutFlag a w then
    .ok ({ acc.1 with localBranch := some (w.localBranch, a.branch) },
      acc.2.1, acc.2.2 ++ [Event.checkout])
  else .ok acc

/-- Divergence hard-reset step (src 1062-1080). -/
def tailHardReset (r : Resolved) (rr : String) (ff : Option Bool) (acc : Acc) : Acc :=
  if ff = some false then
    ({ acc.1 with forcedUpdate := true },
     acc.2.1 ++ ["Repository was hard-reset to " ++
       (if r.rev = "HEAD" then r.headRef.getD ""
        else if r.desiredUpstream.truthy then r.desiredUpstream.str else r.rev) ++
       " (" ++ shortShaStr (some rr) ++ ")"],
     acc.2.2 ++ [Event.reset])
  else acc

/-- Tracking-branch change step (src 1082-1093). -/
def tailUpstream (p : Prep) (r : Resolved) (upstream : PyStr) (acc : Acc) : Acc :=
  if (computeBranchOpts upstream r.desiredUpstream p.setUpstream).1.isSome then
    ({ acc.1 with upstream := some (upstream,
        if r.desiredUpstream.truthy then r.desiredUpstream else PyStr.pnone) },
     acc.2.1 ++ [(computeBranchOpts upstream r.desiredUpstream p.setUpstream).2],
     acc.2.2 ++ [Event.branchOp])
  else acc

/-- Fast-forward step (src 1095-1141): merge when on a branch, reset when the
target is a tag / SHA; the detached-HEAD arm at src 1122-1128 only assigns a
local variable and does nothing. -/
def tailMerge (w : World) (r : Resolved) (rr : String) (baseRev : Option String)
    (ff : Option Bool) (acc : Acc) : Acc :=
  if ff = some true ∧ ¬ revs_equal baseRev (some rr) r.remoteRevType then
    if r.desiredUpstream.truthy then
      if w.symbolicRefHead then
        (acc.1,
         acc.2.1 ++ ["Repository was fast-forwarded to " ++
           (if r.rev = "HEAD" then r.headRef.getD "" else r.desiredUpstream.str) ++
           " (" ++ shortShaStr (some rr) ++ ")"],
         acc.2.2 ++ [Event.merge])
      else acc
    else
      (acc.1, acc.2.1 ++ ["Repository was reset to " ++ r.rev ++ " (fast-forward)"],
       acc.2.2 ++ [Event.reset])
  else acc

/-- Submodule update step (src 1143-1150). -/
def tailSubmodule (a : Args) (acc : Acc) : Acc :=
  if a.submodules then (acc.1, acc.2.1, acc.2.2 ++ [Event.submodule]) else acc

/-- Post-fetch mutation sequence for an existing repository (src 1027-1150):
branch checkout, divergence hard-reset, tracking-branch change, fast-forward
merge or reset, submodule update, in source order. -/
def realTail (a : Args) (w : World) (p : Prep) (r : Resolved) (rr : String)
    (baseRev : Option String) (ff : Option Bool) (upstream : PyStr)
    (chg0 : Changes) (cmts0 : List String) (tr0 : List Event) :
    Except (StateRet × List Event) (Changes × List String × List Event) :=
  match tailCheckout a w (chg0, cmts0, tr0) with
  | .error x => .error x
  | .ok acc =>
    .ok (tailSubmodule a (tailMerge w r rr baseRev ff
      (tailUpstream p r upstream (tailHardReset r rr ff acc))))

/-- The real (non-dry-run) path for an existing repository with a resolved
remote revision (src 948-1150). -/
def realMain (a : Args) (w : World) (p : Prep) (r : Resolved) (rr : String)
    (baseRev : Option String) (has : Bool) (ff : Option Bool) (upstream : PyStr)
    (chg0 : Changes) (cmts0 : List String) (tr0 : List Event) :
    Except (StateRet × List Event) (Changes × List String × List Event) :=
  match realFetchPhase a w r rr baseRev has ff chg0 cmts0 tr0 with
  | .error x => .error x
  | .ok (ff2, chg1, tr1) => realTail a w p r rr baseRev ff2 upstream chg1 cmts0 tr1

/-- The real path for an existing bare repository (src 1161-1173); a raised
fetch is converted by the outer handler (src 1183-1192). -/
def bareReal (a : Args) (w : World) (chg0 : Changes) (cmts0 : List String)
    (tr0 : List Event) :
    Except (StateRet × List Event) (Changes × List String × List Event) :=
  match w.fetchResult with
  | .error e => .error (failRet (strip_exc e) cmts0 chg0, tr0 ++ [Event.fetch])
  | .ok lines =>
    let fc := parse_fetch lines
    let chg1 := if fc.truthy then { chg0 with fetch := some fc } else chg0
    .ok (chg1, cmts0 ++ ["Bare repository at " ++ a.target ++ " was fetched"],
      tr0 ++ [Event.fetch])

/-- Closing section of the existing-repository path (src 1175-1207): read the
final revision, verify it against the resolved remote revision for non-bare
repositories, and report either the change or up-to-dateness. -/
def finishExisting (a : Args) (w : World) (p : Prep) (r : Resolved)
    (chg : Changes) (cmts : List String) (tr : List Event) : StateRet × List Event :=
  if ¬ p.bare ∧ ¬ revs_equal w.finalRev r.remoteRev r.remoteRevType then
    (failRet "Failed to update repository" cmts chg, tr)
  else if w.localRev ≠ w.finalRev then
    ({ result := .rtrue
       comment := format_comments cmts
       changes := { chg with revision := some (w.localRev, w.finalRev) } }, tr)
  else (uptodateL a.target chg cmts, tr)

/-- The pre-fetch fast-forward determination (src 723-744): `None` when the
remote revision is not known to be locally present, else the ancestry answer
(`True` outright when there is no local HEAD). -/
def preFastForward (w : World) (has : Bool) (baseRev remoteRev : Option String) :
    Option Bool :=
  if has then
    some (match baseRev with
          | none => true
          | some b => w.isAncestor b (remoteRev.getD ""))
  else none

/-- The existing-repository branch of `latest` (src 588-1207). -/
def latestExisting (a : Args) (test : Bool) (w : World) (p : Prep) (r : Resolved) :
    StateRet × List Event :=
  if r.remoteRev = none ∧ w.localRev ≠ none then
    (failRet "Remote repository is empty, cannot update from a non-empty to an empty repository" [] {}, [])
  else
    match computeBase a w with
    | .error msg => (failRet msg [] {}, [])
    | .ok (baseRev, baseBranch) =>
      match computeHas a w r baseRev with
      | .error st => (st, [])
      | .ok has =>
        let ff : Option Bool := preFastForward w has baseRev r.remoteRev
        if ff = some false ∧ ¬ a.forceReset then
          (failRet (notFastForwardMsg baseRev r.remoteRev a.branch w.localBranch) [] {}, [])
        else
          let mergeAction :=
            if ff = some false then "hard-reset"
            else if ff = some true then "fast-forwarded"
            else "updated"
          let upstream := computeUpstream w baseBranch
          let fetchUrl := lookupAssoc w.remotes a.remote
          let urlDiff := r.remoteRev ≠ none ∧ some p.desiredFetchUrl ≠ fetchUrl
          if urlDiff ∧ test then
            (urlDryRun a w p r has ff mergeAction fetchUrl, [])
          else
            let chg0 : Changes :=
              if urlDiff then
                { remotes := some (a.remote, fetchUrl.map redactHttpBasicAuth,
                    p.redactedFetchUrl) }
              else {}
            let cmts0 :=
              if urlDiff then ["Remote \x27" ++ a.remote ++ "\x27 set to " ++ p.redactedFetchUrl]
              else []
            let tr0 : List Event := if urlDiff then [Event.remoteSet] else []
            match r.remoteRev with
            | some rr =>
              if test then (mainDryRun a w r rr has ff mergeAction upstream chg0, tr0)
              else
                match realMain a w p r rr baseRev has ff upstream chg0 cmts0 tr0 with
                | .error x => x
                | .ok (chg, cmts, tr) => finishExisting a w p r chg cmts tr
            | none =>
              if p.bare then
                if test then (bareDry a chg0, tr0)
                else
                  match bareReal a w chg0 cmts0 tr0 with
                  | .error x => x
                  | .ok (chg, cmts, tr) => finishExisting a w p r chg cmts tr
              else finishExisting a w p r chg0 cmts0 tr0

/-! ### Clone path of `latest` (src 1208-1434) -/

/-- Closing section of the clone path (src 1403-1434): optional submodule
update, final revision read, comment assembly; the result stays `True`. -/
def cloneFinish (a : Args) (w : World) (r : Resolved) (chg : Changes)
    (cmts : List String) (tr : List Event) : StateRet × List Event :=
  let tr := if a.submodules ∧ optTruthy r.remoteRev then tr ++ [Event.submodule] else tr
  let chg :=
    match w.finalRev with
    | some nr => { chg with revision := some (none, some nr) }
    | none => chg
  ({ result := .rtrue, comment := format_comments cmts, changes := chg }, tr)

/-- Post-clone tracking-branch handling (src 1365-1401).  With no current
branch after the clone, the string concatenation at src 1366-1368 raises a
`TypeError`, which the outer handler (src 1418-1427) converts to a failure
carrying `str(exc)`. -/
def cloneUpstream (a : Args) (w : World) (p : Prep) (r : Resolved)
    (localBranch2 : Option String) (chg : Changes) (cmts : List String)
    (tr : List Event) : StateRet × List Event :=
  match localBranch2 with
  | none =>
    (failRet "unsupported operand type(s) for +: \x27NoneType\x27 and \x27str\x27" cmts chg, tr)
  | some lb =>
    let upstream2 : PyStr :=
      match w.postCloneUpstream (lb ++ "@\x7bupstream\x7d") with
      | .ok u => .pstr u
      | .error _ => .pfalse
    let bo := computeBranchOpts upstream2 r.desiredUpstream p.setUpstream
    let tr := if bo.1.isSome then tr ++ [Event.branchOp] else tr
    let cmts := if bo.1.isSome then cmts ++ [bo.2] else cmts
    cloneFinish a w r chg cmts tr

/-- Non-bare follow-up after a successful clone (src 1291-1401). -/
def cloneAfter (a : Args) (w : World) (p : Prep) (r : Resolved)
    (chg : Changes) (cmts : List String) (tr : List Event) : StateRet × List Event :=
  if ¬ p.bare then
    if ¬ optTruthy r.remoteRev then
      if r.rev ≠ "HEAD" then
        (failRet ("Repository was cloned but is empty, so " ++ a.remote ++ "/" ++ r.rev ++
          " cannot be checked out") cmts chg, tr)
      else cloneFinish a w r chg cmts tr
    else
      match r.remoteRev with
      | some rr =>
        if r.remoteRevType = some RType.tag ∧ r.rev ∉ w.postCloneTags then
          (failRet ("Revision \x27" ++ r.rev ++ "\x27 does not exist in clone") cmts chg, tr)
        else
          let doCo : Bool :=
            match a.branch with
            | some b => decide (b ∉ w.postCloneBranches)
            | none => false
          let tr := if doCo then tr ++ [Event.checkout] else tr
          let cmts :=
            if doCo then
              cmts ++ ["Branch \x27" ++
                (match a.branch with | some b => b | none => "") ++
                "\x27 checked out, with " ++
                (if r.desiredUpstream.truthy then r.desiredUpstream.str else r.rev) ++
                " (" ++ shortShaStr (some rr) ++ ") as a starting point"]
            else cmts
          if ¬ revs_equal w.postCloneRev (some rr) r.remoteRevType then
            let resetRef :=
              if r.rev = "HEAD" then r.headRef.getD ""
              else if r.desiredUpstream.truthy then r.desiredUpstream.str else r.rev
            cloneUpstream a w p r w.postCloneBranch chg
              (cmts ++ ["Repository was reset to " ++ resetRef ++ " (" ++
                shortShaStr (some rr) ++ ")"])
              (tr ++ [Event.reset])
          else cloneUpstream a w p r w.postCloneBranch chg cmts tr
      | none => cloneFinish a w r chg cmts tr
  else cloneFinish a w r chg cmts tr

/-- The clone itself (src 1252-1289) after any force-clone handling. -/
def cloneStep (a : Args) (test : Bool) (w : World) (p : Prep) (r : Resolved)
    (chg0 : Changes) (tr0 : List Event) : StateRet × List Event :=
  if test then
    (neutralRet ("Repository " ++ a.name ++ " would be cloned to " ++ a.target)
      { chg0 with newClone := some (a.name ++ " => " ++ a.target) }, tr0)
  else
    match w.cloneFail with
    | some e => (failRet (strip_exc e) [] chg0, tr0 ++ [Event.clone])
    | none =>
      cloneAfter a w p r
        { chg0 with newClone := some (a.name ++ " => " ++ a.target) }
        [a.name ++ " cloned to " ++ a.target ++
          (if a.mirror then " as mirror"
           else if p.bare then " as bare repository" else "")]
        (tr0 ++ [Event.clone])

/-- The clone branch of `latest` (src 1208-1434): force-clone directory
handling, dry-run prediction, clone and follow-up. -/
def latestClone (a : Args) (test : Bool) (w : World) (p : Prep) (r : Resolved) :
    StateRet × List Event :=
  if w.targetIsDir ∧ a.forceClone ∧ test then
    (neutralRet ("Target directory " ++ a.target ++ " exists. Since force_clone=True, " ++
      "the contents of " ++ a.target ++ " would be deleted, and " ++ a.name ++
      " would be cloned into this directory.")
      { forcedClone := true, newClone := some (a.name ++ " => " ++ a.target) }, [])
  else if w.targetIsDir ∧ a.forceClone then
    match w.rmRfFail with
    | some e =>
      (failRet ("Unable to remove " ++ a.target ++ ": " ++ e) [] {}, [Event.rmRf])
    | none => cloneStep a test w p r { forcedClone := true } [Event.rmRf]
  else if w.targetIsDir ∧ w.targetNonEmptyDir then
    (failRet ("Target \x27" ++ a.target ++ "\x27 exists, is non-empty and is not a git " ++
      "repository. Set the \x27force_clone\x27 option to True to remove this " ++
      "directory\x27s contents and proceed with cloning the remote repository") [] {}, [])
  else cloneStep a test w p r {} []

/-! ### `latest` assembled -/

/-- Body of `latest` after the validation prologue: remote-revision resolution
(src 525-566), the missing-revision failure (src 568-576), and the routing on
whether the target is already a repository or worktree (src 585-588). -/
def latestResolved (a : Args) (test : Bool) (w : World) (p : Prep) :
    StateRet × List Event :=
  let r := resolveRemoteRev w.remoteRefs a.rev a.remote p.bare
  if r.remoteRev = none ∧ ¬ p.bare ∧ a.rev ≠ "HEAD" then
    (failRet ("No revision matching \x27" ++ a.rev ++ "\x27 exists in the remote repository")
      [] {}, [])
  else
    let gitdirExists := if p.bare then w.hasRefsDir else w.hasDotGit
    if gitdirExists ∨ w.isWorktree then latestExisting a test w p r
    else latestClone a test w p r

/-- `latest` (src 174-1434) over the oracle, returning the state return dict
and the trace of mutating collaborator operations invoked, in order. -/
def latest (a : Args) (test : Bool) (w : World) : StateRet × List Event :=
  match validate a w with
  | .error st => (st, [])
  | .ok p => latestResolved a test w p

/-! ### `config_set` (src 1816-2024) -/

/-- The shape the changes dict of `config_set` can take: the dry-run branch
stores a bare `old` / `new` pair (src 1975), the real branch stores it under
the key name (src 2006). -/
inductive CfgChanges where
  | empty
  | plain (old : Option (List String)) (new : List String)
  | keyed (key : String) (old : Option (List String)) (new : List String)
deriving DecidableEq

/-- The state return of `config_set`. -/
structure CfgRet where
  result : RVal
  comment : String
  changes : CfgChanges
deriving DecidableEq

/-- Oracle for one `config_set` invocation: the pre-read of
`git.config_get(all=True)` (`none` when the key is unset) and the result of
the `git.config_set` write (the value list it returns, or the raised error). -/
structure CfgWorld where
  pre : Option (List String) := none
  setResult : Except String (List String) := .ok []

/-- Python `repr` of a list of strings, as interpolated by `str.format`. -/
def pyListRepr (l : List String) : String :=
  "[" ++ joinSep ", " (l.map (fun s => "\x27" ++ s ++ "\x27")) ++ "]"

/-- The desired value list of `config_set` (src 1935-1955): a single `value`
wins over `multivar`; meaningless when neither is given. -/
def cfgDesired : Option String → Option (List String) → List String
  | some s, _ => [s]
  | none, some l => l
  | none, none => []

/-- The `value_comment` rendering of `config_set` (src 1938, 1954). -/
def cfgValueComment : Option String → Option (List String) → String
  | some s, _ => "\x27" ++ s ++ "\x27"
  | none, some l => pyListRepr l
  | none, none => ""

/-- `config_set` (src 1816-2024) over the oracle.  The string coercions of
`value` / `multivar` and the deprecated `is_global` argument are elided; the
result is `none` on the source path that would raise `NameError` (neither
`value` nor `multivar` given, src 1966 reading an unbound `desired`).  The
returned boolean records whether the write (`git.config_set`) was invoked. -/
def config_set (name : String) (value : Option String) (multivar : Option (List String))
    (repo : Option String) (global_ : Bool) (test : Bool) (w : CfgWorld) :
    Option (CfgRet × Bool) :=
  if value.isSome ∧ multivar.isSome then
    some ({ result := .rfalse
            comment := "Only one of \x27value\x27 and \x27multivar\x27 is permitted"
            changes := .empty }, false)
  else if ¬ global_ ∧ repo = none then
    some ({ result := .rfalse
            comment := "Non-global config options require the \x27repo\x27 argument to be set"
            changes := .empty }, false)
  else if value = none ∧ multivar = none then none
  else
      let desired : List String := cfgDesired value multivar
      let valueComment : String := cfgValueComment value multivar
      let gk := if global_ then "Global key " else ""
      let gkl := if global_ then "global key " else ""
      if w.pre = some desired then
        some ({ result := .rtrue
                comment := gk ++ "\x27" ++ name ++ "\x27 is already set to " ++ valueComment
                changes := .empty }, false)
      else if test then
        some ({ result := .rnone
                comment := gk ++ "\x27" ++ name ++ "\x27 would be " ++
                  (if w.pre = none then "added as " else "set to ") ++ valueComment
                changes := .plain w.pre desired }, false)
      else
        match w.setResult with
        | .error e =>
          some ({ result := .rfalse
                  comment := "Failed to set " ++ gkl ++ "\x27" ++ name ++ "\x27 to " ++
                    valueComment ++ ": " ++ strip_exc e
                  changes := .empty }, true)
        | .ok post =>
          let chg := if w.pre ≠ some post then CfgChanges.keyed name w.pre post
                     else CfgChanges.empty
          if post ≠ desired then
            some ({ result := .rfalse
                    comment := "Failed to set " ++ gkl ++ "\x27" ++ name ++ "\x27 to " ++
                      valueComment
                    changes := chg }, true)
          else
            some ({ result := .rtrue
                    comment := gk ++ "\x27" ++ name ++ "\x27 was " ++
                      (if w.pre = none then "added as " else "set to ") ++ valueComment
                    changes := chg }, true)

/-! ### Concrete instances used by the claim theorems

Short fake SHA strings stand in for 40-character SHA1s; nothing in the code
under scrutiny depends on their length beyond `_short_sha` truncation. -/

/-- Desired state: branch `master` of `https://x/r.git` into `/t`. -/
def argsMaster : Args := { name := "https://x/r.git", rev := "master", target := "/t" }

/-- The validation-prologue facts for `argsMaster` against a healthy remote. -/
def prepMaster : Prep :=
  { desiredFetchUrl := "https://x/r.git", redactedFetchUrl := "https://x/r.git",
    bare := false, setUpstream := "--set-upstream-to" }

/-- A fully converged checkout of `argsMaster`: local HEAD at the remote tip
`bbbbbbbbbb`, matching remote URL and tracking branch. -/
def worldConv : World :=
  { hasDotGit := true
    remoteRefs := [("refs/heads/master", "bbbbbbbbbb")]
    localBranches := ["master"], localRev := some "bbbbbbbbbb", localBranch := some "master"
    revParse := fun s =>
      if s = "bbbbbbbbbb^\x7bcommit\x7d" then .ok "bbbbbbbbbb"
      else if s = "origin/master" then .ok "bbbbbbbbbb" else .error "x"
    revParseUpstream := fun s =>
      if s = "master@\x7bupstream\x7d" then .ok "origin/master" else .error "x"
    remotes := [("origin", "https://x/r.git")]
    isAncestor := fun x y => x = "bbbbbbbbbb" && y = "bbbbbbbbbb"
    finalRev := some "bbbbbbbbbb" }

/-- Diverged history (`aaaaaaaaaa` is not an ancestor of the remote tip
`bbbbbbbbbb`) with the remote object not yet fetched locally. -/
def worldDivergedFetch : World :=
  { hasDotGit := true
    remoteRefs := [("refs/heads/master", "bbbbbbbbbb")]
    localBranches := ["master"], localRev := some "aaaaaaaaaa", localBranch := some "master"
    revParse := fun _ => .error "x"
    revParseUpstream := fun s =>
      if s = "master@\x7bupstream\x7d" then .ok "origin/master" else .error "x"
    remotes := [("origin", "https://x/r.git")]
    isAncestor := fun _ _ => false
    revParsePostFetch := fun s =>
      if s = "bbbbbbbbbb^\x7bcommit\x7d" then .ok "bbbbbbbbbb" else .error "x"
    finalRev := some "aaaaaaaaaa" }

/-- Diverged history with the remote object already present and verified
locally (`has_remote_rev` holds). -/
def worldDivergedHas : World :=
  { worldDivergedFetch with
    revParse := fun s =>
      if s = "bbbbbbbbbb^\x7bcommit\x7d" then .ok "bbbbbbbbbb"
      else if s = "origin/master" then .ok "bbbbbbbbbb" else .error "x" }

/-- Desired state: lightweight tag `v1` of `https://x/r.git` into `/t`. -/
def argsTag : Args := { name := "https://x/r.git", rev := "v1", target := "/t" }

/-- Checkout already at the tag `v1`, but with a tracking branch configured on
the current branch, so converging must unset it. -/
def worldTagUnset : World :=
  { hasDotGit := true
    remoteRefs := [("refs/tags/v1", "tttttttttt")]
    localBranches := ["master"], localTags := ["v1"]
    localRev := some "tttttttttt", localBranch := some "master"
    revParse := fun s =>
      if s = "tttttttttt^\x7bcommit\x7d" then .ok "tttttttttt"
      else if s = "v1^\x7bcommit\x7d" then .ok "tttttttttt" else .error "x"
    revParseUpstream := fun s =>
      if s = "master@\x7bupstream\x7d" then .ok "origin/master" else .error "x"
    remotes := [("origin", "https://x/r.git")]
    isAncestor := fun x y => x = "tttttttttt" && y = "tttttttttt"
    finalRev := some "tttttttttt" }

/-- The tag `v1` moved upstream from `t1t1t1t1t1` to `t2t2t2t2t2`; the moved-to
object is not present locally, and the move is a fast-forward. -/
def worldTagMovedAbsent : World :=
  { hasDotGit := true
    remoteRefs := [("refs/tags/v1", "t2t2t2t2t2")]
    localBranches := ["master"], localTags := ["v1"]
    localRev := some "t1t1t1t1t1", localBranch := some "master"
    revParse := fun s =>
      if s = "v1^\x7bcommit\x7d" then .ok "t1t1t1t1t1" else .error "x"
    remotes := [("origin", "https://x/r.git")]
    isAncestor := fun x y => x = "t1t1t1t1t1" && y = "t2t2t2t2t2"
    revParsePostFetch := fun s =>
      if s = "t2t2t2t2t2^\x7bcommit\x7d" then .ok "t2t2t2t2t2" else .error "x"
    finalRev := some "t2t2t2t2t2" }

/-- The tag `v1` moved upstream, and the moved-to object is already present
locally (`rev_parse` of it succeeds). -/
def worldTagMovedPresent : World :=
  { worldTagMovedAbsent with
    revParse := fun s =>
      if s = "v1^\x7bcommit\x7d" then .ok "t1t1t1t1t1"
      else if s = "t2t2t2t2t2^\x7bcommit\x7d" then .ok "t2t2t2t2t2" else .error "x"
    isAncestor := fun _ _ => false
    finalRev := some "t1t1t1t1t1" }

/-- `argsTag` with `force_reset=True`. -/
def argsTagForce : Args := { argsTag with forceReset := true }

/-- The moved-tag world as seen by a forced run: divergent, the fetch brings
the new object, the final revision is the new tag SHA. -/
def worldTagMovedForce : World :=
  { worldTagMovedPresent with finalRev := some "t2t2t2t2t2" }

/-- `argsMaster` plus HTTP Basic-Auth credentials. -/
def argsCreds : Args :=
  { argsMaster with httpsUser := some "u", httpsPass := some "p" }

/-- A hex, non-default revision requested from an empty remote. -/
def argsHex : Args := { name := "u", rev := "abc123", target := "/t" }

/-- The default revision requested from an empty remote. -/
def argsHead : Args := { name := "u", rev := "HEAD", target := "/t" }

/-- An existing non-empty local repository (used against an empty remote). -/
def worldNonEmptyLocal : World := { hasDotGit := true, localRev := some "zz" }

/-- A fast-forward branch update: local at `aaaaaaaaaa`, remote tip
`bbbbbbbbbb` already fetched and verified, tracking branch already right. -/
def worldFFMerge : World :=
  { worldConv with
    localRev := some "aaaaaaaaaa"
    isAncestor := fun x y => x = "aaaaaaaaaa" && y = "bbbbbbbbbb" }

/-- Frame fact about one mutation phase: the remotes entry of the changes dict
is preserved, and the trace is extended only by events other than
`remote_set`. -/
def FrameOk (chg0 : Changes) (tr0 tr1 : List Event) (chg1 : Changes) : Prop :=
  chg1.remotes = chg0.remotes ∧ ∃ ext, tr1 = tr0 ++ ext ∧ Event.remoteSet ∉ ext

/-- The result shape every dry run of `latest` satisfies when it does not fail:
neutral with a nonempty predicted change-set, or an untouched success whose
comment opens with the up-to-date message and whose change-set is empty. -/
def DryShape (target : String) (st : StateRet) : Prop :=
  (st.result = RVal.rnone → st.changes.isEmpty = false) ∧
  (st.result = RVal.rtrue → st.changes.isEmpty = true ∧
    startsWithL st.comment ("Repository " ++ target ++ " is up-to-date") = true)

/-! ## Helper lemmas -/

theorem data_append (x y : String) : (x ++ y).data = x.data ++ y.data := rfl

theorem startsWithL_append (x y : String) : startsWithL (x ++ y) x = true := by
  simp [startsWithL]

theorem ne_append_of_data_ne_nil (s t : String) (h : t.data ≠ []) : s ≠ s ++ t := by
  intro he
  have h2 : s.data = s.data ++ t.data := congrArg String.data he
  have h3 := congrArg List.length h2
  rw [List.length_append] at h3
  exact h (List.eq_nil_of_length_eq_zero (by omega))

theorem ne_append_append (s t u : String) (h : t.data ≠ []) : s ≠ s ++ t ++ u := by
  intro he
  have h2 : s.data = s.data ++ t.data ++ u.data := congrArg String.data he
  have h3 := congrArg List.length h2
  simp only [List.length_append] at h3
  exact h (List.eq_nil_of_length_eq_zero (by omega))

theorem computeBranchOpts_noneL (u du : PyStr) (s : String)
    (hu : u.truthy = false) (hd : du.truthy = false) :
    computeBranchOpts u du s = (none, "") := by
  simp [computeBranchOpts, hu, hd]

theorem revs_equal_refl (x : String) (t : Option RType) :
    revs_equal (some x) (some x) t = true := by
  cases t with
  | none => simp [revs_equal]
  | some rt => cases rt <;> simp [revs_equal, startsWithL]

theorem computeBranchOpts_self (du : PyStr) (s : String) :
    computeBranchOpts du du s = (none, "") := by
  cases du <;> simp [computeBranchOpts, PyStr.truthy]

/-! ## C6 — revision classification cascade -/

/-- C6 counterexample: for the default revision `HEAD` against a remote that
advertises `HEAD`, the code resolves to the advertised SHA with kind `sha1`
and no failure, while the cascade the claim states (which has no `HEAD` case,
and for which `HEAD` is not a hex string) would end in revision-not-found. -/
theorem c6_counterexample :
    resolveRemoteRev [("HEAD", "h1h1h1")] "HEAD" "origin" false =
      ⟨some "h1h1h1", some RType.sha1, PyStr.pnone, some "origin/HEAD", "HEAD"⟩ ∧
    (claimCascade [("HEAD", "h1h1h1")] "HEAD" "origin").remoteRev = none ∧
    resolveRemoteRev [("HEAD", "h1h1h1")] "HEAD" "origin" false ≠
      claimCascade [("HEAD", "h1h1h1")] "HEAD" "origin" := by decide

/-- C6 amended: for every non-`HEAD` revision the resolution of `latest`
(src 525-566) is exactly the claimed cascade — `refs/heads/` then the peeled
tag then the plain tag then the hex-literal fallback then not-found; the
default revision `HEAD` is instead resolved against the advertised `HEAD`
first (kind `sha1`, no tracking). -/
theorem c6_amended (refs : List (String × String)) (rev remote : String)
    (h : rev ≠ "HEAD") :
    resolveRemoteRev refs rev remote false = claimCascade refs rev remote := by
  simp [resolveRemoteRev, claimCascade, h]

/-- C6 witness: the amended cascade at a concrete branch revision. -/
theorem c6_witness :
    resolveRemoteRev [("refs/heads/dev", "s1")] "dev" "origin" false =
      claimCascade [("refs/heads/dev", "s1")] "dev" "origin" :=
  c6_amended [("refs/heads/dev", "s1")] "dev" "origin" (by decide)

/-! ## C7 — empty-remote handling -/

/-- C7 counterexample: a non-default revision that happens to be a hex string
of length at most 40 (`abc123`) requested against a remote with zero refs is
not rejected: it resolves to a literal sha1, and the run proceeds (here a
dry-run clone prediction, result neutral), contradicting the claim that any
non-default revision against an empty remote fails with revision-not-found. -/
theorem c7_counterexample :
    (resolveRemoteRev [] "abc123" "origin" false).remoteRev = some "abc123" ∧
    (latest argsHex true {}).1.result = RVal.rnone := by decide

/-- C7 amended.  (1) Resolving `HEAD` against a remote advertising no `HEAD`
yields a null revision and no error.  (2) A non-default revision that is not a
hex string of length at most 40, requested against an empty remote, fails with
the revision-not-found comment before any mutation.  (3) Updating an existing
non-empty local repository from an empty remote fails before any mutation. -/
theorem c7_amended :
    (∀ refs remote, lookupAssoc refs "HEAD" = none →
      resolveRemoteRev refs "HEAD" remote false =
        ⟨none, none, PyStr.pnone, none, "HEAD"⟩) ∧
    (∀ (a : Args) (w : World) (p : Prep) (test : Bool),
      validate a w = .ok p → p.bare = false → a.rev ≠ "HEAD" →
      w.remoteRefs = [] →
      ¬ (a.rev.data.length ≤ 40 ∧ a.rev.data.all isHexChar) →
      latest a test w =
        (failRet ("No revision matching \x27" ++ a.rev ++
          "\x27 exists in the remote repository") [] {}, [])) ∧
    (∀ (a : Args) (w : World) (p : Prep) (test : Bool) (l : String),
      validate a w = .ok p → p.bare = false → a.rev = "HEAD" →
      w.remoteRefs = [] →
      (w.hasDotGit = true ∨ w.isWorktree = true) → w.localRev = some l →
      latest a test w =
        (failRet "Remote repository is empty, cannot update from a non-empty to an empty repository" [] {}, [])) := by
  refine ⟨?_, ?_, ?_⟩
  · intro refs remote h
    simp [resolveRemoteRev, h]
  · intro a w p test hv hbare hrev hrefs hhex
    have hhex2 : ¬ (a.rev.length ≤ 40 ∧ ∀ x ∈ a.rev.data, isHexChar x = true) := by
      intro hcon
      exact hhex ⟨hcon.1, List.all_eq_true.mpr hcon.2⟩
    have hres : resolveRemoteRev w.remoteRefs a.rev a.remote false =
        ⟨none, none, PyStr.pnone, none, a.rev⟩ := by
      simp [resolveRemoteRev, hrefs, lookupAssoc, hrev, hhex2]
    simp [latest, hv, latestResolved, hbare, hres, hrev]
  · intro a w p test l hv hbare hrev hrefs hroute hlocal
    have hres : resolveRemoteRev w.remoteRefs "HEAD" a.remote false =
        ⟨none, none, PyStr.pnone, none, "HEAD"⟩ := by
      simp [resolveRemoteRev, hrefs, lookupAssoc]
    have hex : latestExisting a test w p ⟨none, none, PyStr.pnone, none, "HEAD"⟩ =
        (failRet "Remote repository is empty, cannot update from a non-empty to an empty repository" [] {}, []) := by
      unfold latestExisting
      simp [hlocal]
    rcases hroute with h | h <;>
      simp [latest, hv, latestResolved, hrev, hbare, hres, h, hex]

/-- C7 witness: the three amended parts at concrete inputs. -/
theorem c7_witness :
    resolveRemoteRev [] "HEAD" "origin" false = ⟨none, none, PyStr.pnone, none, "HEAD"⟩ ∧
    latest { name := "u", rev := "devel", target := "/t" } false {} =
      (failRet "No revision matching \x27devel\x27 exists in the remote repository" [] {}, []) ∧
    latest argsHead false worldNonEmptyLocal =
      (failRet "Remote repository is empty, cannot update from a non-empty to an empty repository" [] {}, []) :=
  ⟨c7_amended.1 [] "origin" rfl,
   c7_amended.2.1 { name := "u", rev := "devel", target := "/t" } {}
     ⟨"u", "u", false, "--set-upstream-to"⟩ false rfl rfl (by decide) rfl (by decide),
   c7_amended.2.2 argsHead worldNonEmptyLocal ⟨"u", "u", false, "--set-upstream-to"⟩
     false "zz" rfl rfl rfl rfl (Or.inl rfl) rfl⟩

/-- Routing: when validation succeeds, a remote revision is resolved, and the
target is already a repository or worktree, `latest` is the existing-repository
branch. -/
theorem latest_routes_existing (a : Args) (test : Bool) (w : World) (p : Prep)
    (rr : String)
    (hv : validate a w = .ok p)
    (hrr : (resolveRemoteRev w.remoteRefs a.rev a.remote p.bare).remoteRev = some rr)
    (hroute : (if p.bare then w.hasRefsDir else w.hasDotGit) = true ∨ w.isWorktree = true) :
    latest a test w =
      latestExisting a test w p (resolveRemoteRev w.remoteRefs a.rev a.remote p.bare) := by
  have h1 : ¬ ((resolveRemoteRev w.remoteRefs a.rev a.remote p.bare).remoteRev = none ∧
      ¬ p.bare = true ∧ a.rev ≠ "HEAD") := by simp [hrr]
  simp only [latest, hv, latestResolved]
  rw [if_neg h1, if_pos hroute]

/-! ## C9 — config_set convergence -/

/-- C9: `config_set` compares the current value list order-sensitively against
the desired value(s): identical means success with no changes and no write;
otherwise it writes and re-reads, records the old/new entry exactly when the
read-back differs from the pre-value, and fails with a read-back-mismatch
comment — distinct from the write-command-failure comment — when the re-read
disagrees with what was requested. -/
theorem c9_config_set (name : String) (v : Option String) (m : Option (List String))
    (repo : Option String) (g : Bool) (w : CfgWorld)
    (hone : (v.isSome ∧ m = none) ∨ (v = none ∧ m.isSome))
    (hrepo : g = true ∨ repo ≠ none) :
    (w.pre = some (cfgDesired v m) →
      config_set name v m repo g false w =
        some ({ result := .rtrue
                comment := (if g then "Global key " else "") ++ "\x27" ++ name ++
                  "\x27 is already set to " ++ cfgValueComment v m
                changes := .empty }, false)) ∧
    (∀ post, w.pre ≠ some (cfgDesired v m) → w.setResult = .ok post →
      post = cfgDesired v m →
      config_set name v m repo g false w =
        some ({ result := .rtrue
                comment := (if g then "Global key " else "") ++ "\x27" ++ name ++
                  "\x27 was " ++ (if w.pre = none then "added as " else "set to ") ++
                  cfgValueComment v m
                changes := .keyed name w.pre post }, true)) ∧
    (∀ post, w.pre ≠ some (cfgDesired v m) → w.setResult = .ok post →
      post ≠ cfgDesired v m →
      config_set name v m repo g false w =
        some ({ result := .rfalse
                comment := "Failed to set " ++ (if g then "global key " else "") ++
                  "\x27" ++ name ++ "\x27 to " ++ cfgValueComment v m
                changes := if w.pre ≠ some post then CfgChanges.keyed name w.pre post
                           else CfgChanges.empty }, true)) ∧
    (∀ e, w.pre ≠ some (cfgDesired v m) → w.setResult = .error e →
      config_set name v m repo g false w =
        some ({ result := .rfalse
                comment := "Failed to set " ++ (if g then "global key " else "") ++
                  "\x27" ++ name ++ "\x27 to " ++ cfgValueComment v m ++ ": " ++ strip_exc e
                changes := .empty }, true)) ∧
    (∀ e, ("Failed to set " ++ (if g then "global key " else "") ++ "\x27" ++ name ++
        "\x27 to " ++ cfgValueComment v m) ≠
      ("Failed to set " ++ (if g then "global key " else "") ++ "\x27" ++ name ++
        "\x27 to " ++ cfgValueComment v m ++ ": " ++ strip_exc e)) := by
  have hguard : ¬ (¬ g = true ∧ repo = none) := by
    rcases hrepo with h | h <;> simp [h]
  refine ⟨?_, ?_, ?_, ?_, ?_⟩
  · intro hpre
    rcases hone with ⟨hv, hm⟩ | ⟨hv, hm⟩
    · rcases Option.isSome_iff_exists.mp hv with ⟨s, rfl⟩
      simp_all [config_set, cfgDesired, cfgValueComment]
    · rcases Option.isSome_iff_exists.mp hm with ⟨l, rfl⟩
      simp_all [config_set, cfgDesired, cfgValueComment]
  · intro post hpre hset hpost
    rcases hone with ⟨hv, hm⟩ | ⟨hv, hm⟩
    · rcases Option.isSome_iff_exists.mp hv with ⟨s, rfl⟩
      have : w.pre ≠ some post := by rw [hpost]; exact hpre
      simp_all [config_set, cfgDesired, cfgValueComment]
    · rcases Option.isSome_iff_exists.mp hm with ⟨l, rfl⟩
      have : w.pre ≠ some post := by rw [hpost]; exact hpre
      simp_all [config_set, cfgDesired, cfgValueComment]
  · intro post hpre hset hpost
    rcases hone with ⟨hv, hm⟩ | ⟨hv, hm⟩
    · rcases Option.isSome_iff_exists.mp hv with ⟨s, rfl⟩
      simp_all [config_set, cfgDesired, cfgValueComment]
    · rcases Option.isSome_iff_exists.mp hm with ⟨l, rfl⟩
      simp_all [config_set, cfgDesired, cfgValueComment]
  · intro e hpre hset
    rcases hone with ⟨hv, hm⟩ | ⟨hv, hm⟩
    · rcases Option.isSome_iff_exists.mp hv with ⟨s, rfl⟩
      simp_all [config_set, cfgDesired, cfgValueComment]
    · rcases Option.isSome_iff_exists.mp hm with ⟨l, rfl⟩
      simp_all [config_set, cfgDesired, cfgValueComment]
  · intro e
    exact ne_append_append _ ": " (strip_exc e) (by decide)

/-- C9 witness: the four behaviours at the concrete key `user.email`. -/
theorem c9_witness :
    config_set "user.email" (some "a@b.c") none (some "/r") false false
        { pre := some ["a@b.c"], setResult := .ok ["a@b.c"] } =
      some ({ result := .rtrue
              comment := "\x27user.email\x27 is already set to \x27a@b.c\x27"
              changes := .empty }, false) ∧
    config_set "user.email" (some "a@b.c") none (some "/r") false false
        { pre := none, setResult := .ok ["a@b.c"] } =
      some ({ result := .rtrue
              comment := "\x27user.email\x27 was added as \x27a@b.c\x27"
              changes := .keyed "user.email" none ["a@b.c"] }, true) ∧
    config_set "user.email" (some "a@b.c") none (some "/r") false false
        { pre := some ["old"], setResult := .ok ["wrong"] } =
      some ({ result := .rfalse
              comment := "Failed to set \x27user.email\x27 to \x27a@b.c\x27"
              changes := .keyed "user.email" (some ["old"]) ["wrong"] }, true) ∧
    config_set "user.email" (some "a@b.c") none (some "/r") false false
        { pre := some ["old"], setResult := .error "boom" } =
      some ({ result := .rfalse
              comment := "Failed to set \x27user.email\x27 to \x27a@b.c\x27: boom"
              changes := .empty }, true) := by
  have h1 := c9_config_set "user.email" (some "a@b.c") none (some "/r") false
    { pre := some ["a@b.c"], setResult := .ok ["a@b.c"] }
    (Or.inl ⟨rfl, rfl⟩) (Or.inr (by decide))
  have h2 := c9_config_set "user.email" (some "a@b.c") none (some "/r") false
    { pre := none, setResult := .ok ["a@b.c"] }
    (Or.inl ⟨rfl, rfl⟩) (Or.inr (by decide))
  have h3 := c9_config_set "user.email" (some "a@b.c") none (some "/r") false
    { pre := some ["old"], setResult := .ok ["wrong"] }
    (Or.inl ⟨rfl, rfl⟩) (Or.inr (by decide))
  have h4 := c9_config_set "user.email" (some "a@b.c") none (some "/r") false
    { pre := some ["old"], setResult := .error "boom" }
    (Or.inl ⟨rfl, rfl⟩) (Or.inr (by decide))
  refine ⟨h1.1 rfl, ?_, ?_, ?_⟩
  · have := h2.2.1 ["a@b.c"] (by decide) rfl (by decide)
    simpa using this
  · have := h3.2.2.1 ["wrong"] (by decide) rfl (by decide)
    simpa using this
  · have := h4.2.2.2.1 "boom" (by decide) rfl
    simpa [strip_exc] using this

/-! ## Concrete counterexamples for C1, C2, C3, C5, C8 -/

/-- C1 counterexample: a diverged repository (base `aaaaaaaaaa` is not an
ancestor of the resolved remote revision `bbbbbbbbbb`) with `force_reset`
unset, where the remote object is not yet local: the run does fail, but it
invokes a mutating fetch first — contradicting that no mutating git operation
is ever invoked. -/
theorem c1_counterexample :
    (latest argsMaster false worldDivergedFetch).1.result = RVal.rfalse ∧
    (latest argsMaster false worldDivergedFetch).2 = [Event.fetch] := by decide

/-- C2 counterexample: with the dry-run flag set, a diverged repository whose
remote revision is already present locally makes `latest` return failure
(`result=False`) from the pre-fetch fast-forward check — not the claimed
neutral prediction or up-to-date success (no mutation is invoked, though). -/
theorem c2_counterexample :
    (latest argsMaster true worldDivergedHas).1.result = RVal.rfalse ∧
    (latest argsMaster true worldDivergedHas).2 = [] := by decide

/-- C3 counterexample: converging a repository already at the desired tag but
with a tracking branch to unset, the dry-run records the upstream change as
`old/False` while the real run records `old/None`; the two change-sets differ
even though no timing-dependent SHA is involved, because the two are built by
separate code paths (src 937-940 versus src 1088-1092). -/
theorem c3_counterexample :
    (latest argsTag true worldTagUnset).1.changes.upstream =
      some (PyStr.pstr "origin/master", PyStr.pfalse) ∧
    (latest argsTag false worldTagUnset).1.changes.upstream =
      some (PyStr.pstr "origin/master", PyStr.pnone) ∧
    (latest argsTag true worldTagUnset).1.changes ≠
      (latest argsTag false worldTagUnset).1.changes := by decide

/-- C5 counterexample: the desired URL with embedded credentials and the
existing credential-free fetch URL are equal in credential-redacted form, yet
the code compares them with credentials included and performs the remote-URL
update — the claimed credential-insensitive comparison does not happen. -/
theorem c5_counterexample :
    stripHttpBasicAuth "https://u:p@x/r.git" = stripHttpBasicAuth "https://x/r.git" ∧
    (validate argsCreds worldConv).toOption.map Prep.desiredFetchUrl =
      some "https://u:p@x/r.git" ∧
    (latest argsCreds false worldConv).2 = [Event.remoteSet] ∧
    (latest argsCreds false worldConv).1.changes.remotes =
      some ("origin", some "https://x/r.git", "https://<redacted>@x/r.git") := by decide

/-- C8 counterexample: the desired tag `v1` exists locally at `t1t1t1t1t1`
while the remote moved it to `t2t2t2t2t2`; because the moved-to object is not
present locally, the tag check (src 684-719) is never reached: with
`force_reset` unset the run fetches, resets to the new tag location and
succeeds — neither the claimed immediate failure nor the claimed absence of
mutations. -/
theorem c8_counterexample :
    (latest argsTag false worldTagMovedAbsent).1.result = RVal.rtrue ∧
    (latest argsTag false worldTagMovedAbsent).2 = [Event.fetch, Event.reset] := by decide

/-- C1 amended: on an existing non-bare repository whose base revision is not
an ancestor of the resolved remote revision and with `force_reset` unset,
(1) when the remote revision is already locally present and verified
(`has_remote_rev`), the run fails with the comment naming the two short SHAs
and the `force_reset` remedy, and invokes no mutating operation at all; and
(2) when it is not locally present, the (non-dry-run) run still fails, but a
fetch — and possibly a remote-URL update — precedes the failure; no checkout,
reset, merge, branch or submodule operation is ever invoked. -/
theorem c1_amended :
    (∀ (a : Args) (test : Bool) (w : World) (p : Prep) (rr b : String)
        (bb : Option String),
      validate a w = .ok p →
      (resolveRemoteRev w.remoteRefs a.rev a.remote p.bare).remoteRev = some rr →
      ((if p.bare then w.hasRefsDir else w.hasDotGit) = true ∨ w.isWorktree = true) →
      computeBase a w = .ok (some b, bb) →
      computeHas a w (resolveRemoteRev w.remoteRefs a.rev a.remote p.bare) (some b) =
        .ok true →
      w.isAncestor b rr = false →
      a.forceReset = false →
      latest a test w =
        (failRet (notFastForwardMsg (some b) (some rr) a.branch w.localBranch) [] {}, [])) ∧
    (∀ (a : Args) (w : World) (p : Prep) (rr b : String) (bb : Option String),
      validate a w = .ok p →
      (resolveRemoteRev w.remoteRefs a.rev a.remote p.bare).remoteRev = some rr →
      ((if p.bare then w.hasRefsDir else w.hasDotGit) = true ∨ w.isWorktree = true) →
      computeBase a w = .ok (some b, bb) →
      computeHas a w (resolveRemoteRev w.remoteRefs a.rev a.remote p.bare) (some b) =
        .ok false →
      w.isAncestor b rr = false →
      a.forceReset = false →
      (latest a false w).1.result = RVal.rfalse ∧
      ∀ e ∈ (latest a false w).2, e = Event.remoteSet ∨ e = Event.fetch) := by
  constructor
  · intro a test w p rr b bb hv hrr hroute hbase hhas hanc hforce
    rw [latest_routes_existing a test w p rr hv hrr hroute]
    unfold latestExisting
    simp [hbase, hhas, hrr, preFastForward, hanc, hforce]
  · intro a w p rr b bb hv hrr hroute hbase hhas hanc hforce
    rw [latest_routes_existing a false w p rr hv hrr hroute]
    unfold latestExisting
    simp only [hbase, hhas, hrr, preFastForward]
    unfold realMain realFetchPhase
    cases hf : w.fetchResult with
    | error e =>
      simp [hrr, hf, failRet]
      tauto
    | ok lines =>
      cases hpf : w.revParsePostFetch (rr ++ "^\x7bcommit\x7d") with
      | error e2 =>
        simp [hrr, hf, hpf, failRet]
        tauto
      | ok s =>
        simp [hrr, hf, hpf, hanc, hforce, failRet]
        tauto

/-- C1 witness: both amended halves at concrete diverged worlds. -/
theorem c1_witness :
    latest argsMaster false worldDivergedHas =
      (failRet (notFastForwardMsg (some "aaaaaaaaaa") (some "bbbbbbbbbb") none
        (some "master")) [] {}, []) ∧
    ((latest argsMaster false worldDivergedFetch).1.result = RVal.rfalse ∧
      ∀ e ∈ (latest argsMaster false worldDivergedFetch).2,
        e = Event.remoteSet ∨ e = Event.fetch) :=
  ⟨c1_amended.1 argsMaster false worldDivergedHas prepMaster "bbbbbbbbbb" "aaaaaaaaaa"
      (some "master") rfl rfl (Or.inl rfl) rfl rfl rfl rfl,
   c1_amended.2 argsMaster worldDivergedFetch prepMaster "bbbbbbbbbb" "aaaaaaaaaa"
      (some "master") rfl rfl (Or.inl rfl) rfl rfl rfl rfl⟩

/-- C8 amended: on an existing non-bare repository whose desired revision is a
tag present locally with a remote SHA differing from the local tag SHA, and
with the tag\x27s new remote object already present locally (only then is the
check at src 684-719 reached), (1) `force_reset=false` fails immediately,
naming both short SHAs and the `force_reset` remedy, with no mutation; and
(2) `force_reset=true` passes the check with the tag not counted as locally
up-to-date, so the run fetches and — when the move is divergent — hard-resets
to the tag\x27s new SHA, recording a forced update.  (When the new object is
absent locally the check is never reached and the run fetches first.) -/
theorem c8_amended :
    (∀ (a : Args) (test : Bool) (w : World) (p : Prep) (rr s : String)
        (baseRev bb lts : Option String),
      validate a w = .ok p →
      (resolveRemoteRev w.remoteRefs a.rev a.remote p.bare).remoteRev = some rr →
      (resolveRemoteRev w.remoteRefs a.rev a.remote p.bare).remoteRevType =
        some RType.tag →
      ((if p.bare then w.hasRefsDir else w.hasDotGit) = true ∨ w.isWorktree = true) →
      computeBase a w = .ok (baseRev, bb) →
      w.revParse (rr ++ "^\x7bcommit\x7d") = .ok s →
      (resolveRemoteRev w.remoteRefs a.rev a.remote p.bare).rev ∈ w.localTags →
      (w.revParse ((resolveRemoteRev w.remoteRefs a.rev a.remote p.bare).rev ++
        "^\x7bcommit\x7d")).toOption = lts →
      lts ≠ some rr →
      a.forceReset = false →
      latest a test w =
        (failRet (tagMovedMsg (resolveRemoteRev w.remoteRefs a.rev a.remote p.bare).rev
          (some rr) lts) [] {}, [])) ∧
    (∀ (a : Args) (w : World) (p : Prep) (rr s s2 b : String) (bb : Option String),
      validate a w = .ok p → p.bare = false →
      (resolveRemoteRev w.remoteRefs a.rev a.remote p.bare).remoteRev = some rr →
      (resolveRemoteRev w.remoteRefs a.rev a.remote p.bare).remoteRevType =
        some RType.tag →
      (resolveRemoteRev w.remoteRefs a.rev a.remote p.bare).desiredUpstream =
        PyStr.pfalse →
      (resolveRemoteRev w.remoteRefs a.rev a.remote p.bare).rev ≠ "HEAD" →
      ((if p.bare then w.hasRefsDir else w.hasDotGit) = true ∨ w.isWorktree = true) →
      computeBase a w = .ok (some b, bb) →
      w.revParse (rr ++ "^\x7bcommit\x7d") = .ok s →
      (resolveRemoteRev w.remoteRefs a.rev a.remote p.bare).rev ∈ w.localTags →
      (w.revParse ((resolveRemoteRev w.remoteRefs a.rev a.remote p.bare).rev ++
        "^\x7bcommit\x7d")).toOption ≠ some rr →
      a.forceReset = true →
      some p.desiredFetchUrl = lookupAssoc w.remotes a.remote →
      a.branch = none →
      (computeUpstream w bb).truthy = false →
      w.fetchResult = .ok [] →
      w.revParsePostFetch (rr ++ "^\x7bcommit\x7d") = .ok s2 →
      w.isAncestor b rr = false →
      a.submodules = false →
      w.finalRev = some rr →
      w.localRev ≠ some rr →
      latest a false w =
        ({ result := .rtrue
           comment := "Repository was hard-reset to " ++
             (resolveRemoteRev w.remoteRefs a.rev a.remote p.bare).rev ++
             " (" ++ shortShaStr (some rr) ++ ")"
           changes := { revision := some (w.localRev, some rr), forcedUpdate := true } },
         [Event.fetch, Event.reset])) := by
  constructor
  · intro a test w p rr s baseRev bb lts hv hrr htype hroute hbase hobj htagmem hlts hne
      hforce
    rw [latest_routes_existing a test w p rr hv hrr hroute]
    have hhas : computeHas a w (resolveRemoteRev w.remoteRefs a.rev a.remote p.bare)
        baseRev =
        .error (failRet (tagMovedMsg (resolveRemoteRev w.remoteRefs a.rev a.remote
          p.bare).rev (some rr) lts) [] {}) := by
      unfold computeHas
      simp [htype, hrr, hobj, htagmem, hlts, hne, hforce]
    unfold latestExisting
    simp [hbase, hhas, hrr]
  · intro a w p rr s s2 b bb hv hbare hrr htype hdu hrev hroute hbase hobj htagmem hlts
      hforce hurl hbranch hup hfetch hpf hanc hsub hfin hloc
    have hhas : computeHas a w (resolveRemoteRev w.remoteRefs a.rev a.remote p.bare)
        (some b) = .ok false := by
      unfold computeHas
      simp [htype, hrr, hobj, htagmem, hlts, hforce]
    rw [latest_routes_existing a false w p rr hv hrr hroute]
    revert hhas hrr htype hdu hrev
    generalize resolveRemoteRev w.remoteRefs a.rev a.remote p.bare = r
    intro hrr htype hdu hrev hhas
    have hbo : computeBranchOpts (computeUpstream w bb) PyStr.pfalse p.setUpstream =
        (none, "") :=
      computeBranchOpts_noneL _ _ _ hup rfl
    unfold latestExisting
    simp only [hbase, hhas, hrr, preFastForward]
    unfold realMain realFetchPhase realTail
    simp [hrr, hurl, hbranch, hfetch, hpf, hanc, hforce, hdu, hrev, hup, hsub, hbo,
      parse_fetch, FetchDict.truthy, finishExisting, hbare, hfin, revs_equal_refl, hloc,
      format_comments, joinSep, PyStr.truthy, PyStr.str, doCheckoutFlag,
      tailCheckout, tailHardReset, tailUpstream, tailMerge, tailSubmodule]

/-- C8 witness: both amended halves at the concrete moved-tag worlds. -/
theorem c8_witness :
    latest argsTag false worldTagMovedPresent =
      (failRet (tagMovedMsg "v1" (some "t2t2t2t2t2") (some "t1t1t1t1t1")) [] {}, []) ∧
    latest argsTagForce false worldTagMovedForce =
      ({ result := .rtrue
         comment := "Repository was hard-reset to v1 (t2t2t2t)"
         changes := { revision := some (some "t1t1t1t1t1", some "t2t2t2t2t2")
                      forcedUpdate := true } },
       [Event.fetch, Event.reset]) :=
  ⟨c8_amended.1 argsTag false worldTagMovedPresent prepMaster "t2t2t2t2t2" "t2t2t2t2t2"
      (some "t1t1t1t1t1") (some "master") (some "t1t1t1t1t1")
      rfl rfl rfl (Or.inl rfl) rfl rfl (by decide) rfl (by decide) rfl,
   c8_amended.2 argsTagForce worldTagMovedForce prepMaster "t2t2t2t2t2" "t2t2t2t2t2"
      "t2t2t2t2t2" "t1t1t1t1t1" (some "master")
      rfl rfl rfl rfl rfl (by decide) (Or.inl rfl) rfl rfl (by decide) (by decide) rfl
      rfl rfl rfl rfl rfl rfl rfl rfl (by decide)⟩

/-- C4: idempotence.  A converged world — the state a successful run leaves
behind (local revision equal to the resolved remote revision, matching remote
URL, desired tracking configuration already in place, requested branch already
current) — makes a further non-dry-run invocation of `latest` return success
with the up-to-date comment and an empty changes dict. -/
theorem c4_idempotent (a : Args) (w : World) (p : Prep) (rr l : String)
    (bb : Option String)
    (hv : validate a w = .ok p)
    (hbare : p.bare = false)
    (hrr : (resolveRemoteRev w.remoteRefs a.rev a.remote p.bare).remoteRev = some rr)
    (hroute : (if p.bare then w.hasRefsDir else w.hasDotGit) = true ∨ w.isWorktree = true)
    (hbase : computeBase a w = .ok (some l, bb))
    (hhas : computeHas a w (resolveRemoteRev w.remoteRefs a.rev a.remote p.bare)
      (some l) = .ok true)
    (hanc : w.isAncestor l rr = true)
    (hbaseeq : revs_equal (some l) (some rr)
      (resolveRemoteRev w.remoteRefs a.rev a.remote p.bare).remoteRevType = true)
    (hurl : some p.desiredFetchUrl = lookupAssoc w.remotes a.remote)
    (hbo : (computeBranchOpts (computeUpstream w bb)
      (resolveRemoteRev w.remoteRefs a.rev a.remote p.bare).desiredUpstream
      p.setUpstream).1 = none)
    (hbranch : a.branch = none ∨ a.branch = w.localBranch)
    (hlocal : w.localRev = some l)
    (hfin : w.finalRev = some l) :
    (latest a false w).1 =
      { result := .rtrue
        comment := "Repository " ++ a.target ++ " is up-to-date"
        changes := {} } := by
  rw [latest_routes_existing a false w p rr hv hrr hroute]
  revert hrr hhas hbaseeq hbo
  generalize resolveRemoteRev w.remoteRefs a.rev a.remote p.bare = r
  intro hrr hhas hbaseeq hbo
  have hdc : doCheckoutFlag a w = false := by
    unfold doCheckoutFlag
    rcases hbranch with h | h
    · simp [h]
    · rw [h]; cases w.localBranch <;> simp
  unfold latestExisting
  simp only [hbase, hhas, hrr, preFastForward]
  unfold realMain realFetchPhase realTail
  simp only [hrr, hurl, hanc, hbaseeq, hbo, hdc, hbare, hfin, hlocal]
  cases hs : a.submodules <;>
    simp [hrr, hurl, hanc, hbaseeq, hbo, hdc, finishExisting, hbare, hfin, hlocal,
      uptodateL, format_comments, joinSep, hs,
      tailCheckout, tailHardReset, tailUpstream, tailMerge, tailSubmodule]

/-- C4 witness: the converged world of `argsMaster`. -/
theorem c4_witness :
    (latest argsMaster false worldConv).1 =
      { result := .rtrue
        comment := "Repository /t is up-to-date"
        changes := {} } :=
  c4_idempotent argsMaster worldConv prepMaster "bbbbbbbbbb" "bbbbbbbbbb"
    (some "master") rfl rfl rfl (Or.inl rfl) rfl rfl rfl (by decide) rfl rfl
    (Or.inl rfl) rfl rfl

/-- C3 amended: predicted and executed change-sets are built by separate code
paths (src 848-946 versus 1027-1207) and differ in general — see the
counterexample — but for a plain fast-forward of the current branch (no branch
argument, tracking already as desired, matching remote URL, remote revision
locally present, the post-merge revision being the resolved remote revision)
the dry-run prediction and the real run produce the same change-set: exactly
the revision entry. -/
theorem c3_amended (a : Args) (w : World) (p : Prep) (rr l u : String)
    (bb : Option String)
    (hv : validate a w = .ok p)
    (hbare : p.bare = false)
    (hrr : (resolveRemoteRev w.remoteRefs a.rev a.remote p.bare).remoteRev = some rr)
    (hroute : (if p.bare then w.hasRefsDir else w.hasDotGit) = true ∨ w.isWorktree = true)
    (hbase : computeBase a w = .ok (some l, bb))
    (hhas : computeHas a w (resolveRemoteRev w.remoteRefs a.rev a.remote p.bare)
      (some l) = .ok true)
    (hanc : w.isAncestor l rr = true)
    (hurl : some p.desiredFetchUrl = lookupAssoc w.remotes a.remote)
    (hbranch : a.branch = none)
    (hdu : (resolveRemoteRev w.remoteRefs a.rev a.remote p.bare).desiredUpstream =
      PyStr.pstr u)
    (hune : u.data ≠ [])
    (hup : computeUpstream w bb = PyStr.pstr u)
    (hne : revs_equal (some l) (some rr)
      (resolveRemoteRev w.remoteRefs a.rev a.remote p.bare).remoteRevType = false)
    (hlocal : w.localRev = some l)
    (hsym : w.symbolicRefHead = true)
    (hfin : w.finalRev = some rr) :
    (latest a true w).1.changes = { revision := some (some l, some rr) } ∧
    (latest a false w).1.changes = { revision := some (some l, some rr) } := by
  have hlrr : ¬ (l = rr) := by
    intro he
    rw [he, revs_equal_refl] at hne
    exact absurd hne (by simp)
  have hR1 := latest_routes_existing a true w p rr hv hrr hroute
  have hR2 := latest_routes_existing a false w p rr hv hrr hroute
  rw [hR1, hR2]
  revert hrr hhas hdu hne
  generalize resolveRemoteRev w.remoteRefs a.rev a.remote p.bare = r
  intro hrr hhas hdu hne
  have hbo : computeBranchOpts (PyStr.pstr u) (PyStr.pstr u) p.setUpstream = (none, "") :=
    computeBranchOpts_self _ _
  constructor
  · unfold latestExisting
    simp only [hbase, hhas, hrr, preFastForward]
    unfold mainDryRun
    simp [hrr, hurl, hanc, hbranch, hdu, hup, hne, hlocal, hune, PyStr.truthy,
      Changes.isEmpty, neutralRet]
  · unfold latestExisting
    simp only [hbase, hhas, hrr, preFastForward]
    unfold realMain realFetchPhase realTail
    cases hs : a.submodules <;>
      simp [hrr, hurl, hanc, hbranch, hdu, hup, hne, hlocal, hune, hsym, hbo,
        PyStr.truthy, finishExisting, hbare, hfin, revs_equal_refl, hlrr, hs,
        doCheckoutFlag,
        tailCheckout, tailHardReset, tailUpstream, tailMerge, tailSubmodule]

/-- C3 witness: dry-run and real run agree on the fast-forward world. -/
theorem c3_witness :
    (latest argsMaster true worldFFMerge).1.changes =
      { revision := some (some "aaaaaaaaaa", some "bbbbbbbbbb") } ∧
    (latest argsMaster false worldFFMerge).1.changes =
      { revision := some (some "aaaaaaaaaa", some "bbbbbbbbbb") } :=
  c3_amended argsMaster worldFFMerge prepMaster "bbbbbbbbbb" "aaaaaaaaaa"
    "origin/master" (some "master") rfl rfl rfl (Or.inl rfl) rfl rfl rfl rfl rfl rfl
    (by decide) rfl rfl rfl rfl rfl

/-! ## Frame lemmas: mutation phases preserve the remotes entry and extend the
trace only with events other than `remote_set` -/

theorem frame_trans {c0 c1 c2 : Changes} {t0 t1 t2 : List Event}
    (h1 : FrameOk c0 t0 t1 c1) (h2 : FrameOk c1 t1 t2 c2) : FrameOk c0 t0 t2 c2 := by
  obtain ⟨ha, e1, rfl, hn1⟩ := h1
  obtain ⟨hb, e2, rfl, hn2⟩ := h2
  exact ⟨hb.trans ha, e1 ++ e2, by simp [List.append_assoc], by simp [hn1, hn2]⟩

theorem tailCheckout_frame (a : Args) (w : World) (acc : Acc) :
    (∀ st tr1, tailCheckout a w acc = .error (st, tr1) →
      st.changes = acc.1 ∧ tr1 = acc.2.2) ∧
    (∀ acc2, tailCheckout a w acc = .ok acc2 → FrameOk acc.1 acc.2.2 acc2.2.2 acc2.1) := by
  constructor
  · intro st tr1 h
    unfold tailCheckout at h
    split at h
    · simp only [Except.error.injEq, Prod.mk.injEq] at h
      obtain ⟨h1, h2⟩ := h
      subst h1
      subst h2
      exact ⟨rfl, rfl⟩
    · split at h <;> exact Except.noConfusion h
  · intro acc2 h
    unfold tailCheckout at h
    split at h
    · exact Except.noConfusion h
    · split at h <;>
      · simp only [Except.ok.injEq] at h
        subst h
        first
        | exact ⟨rfl, [Event.checkout], rfl, by decide⟩
        | exact ⟨rfl, [], (List.append_nil _).symm, by decide⟩

theorem tailHardReset_frame (r : Resolved) (rr : String) (ff : Option Bool) (acc : Acc) :
    FrameOk acc.1 acc.2.2 (tailHardReset r rr ff acc).2.2 (tailHardReset r rr ff acc).1 := by
  unfold tailHardReset
  split
  · exact ⟨rfl, [Event.reset], rfl, by decide⟩
  · exact ⟨rfl, [], (List.append_nil _).symm, by decide⟩

theorem tailUpstream_frame (p : Prep) (r : Resolved) (upstream : PyStr) (acc : Acc) :
    FrameOk acc.1 acc.2.2 (tailUpstream p r upstream acc).2.2
      (tailUpstream p r upstream acc).1 := by
  unfold tailUpstream
  split
  · exact ⟨rfl, [Event.branchOp], rfl, by decide⟩
  · exact ⟨rfl, [], (List.append_nil _).symm, by decide⟩

theorem tailMerge_frame (w : World) (r : Resolved) (rr : String)
    (baseRev : Option String) (ff : Option Bool) (acc : Acc) :
    FrameOk acc.1 acc.2.2 (tailMerge w r rr baseRev ff acc).2.2
      (tailMerge w r rr baseRev ff acc).1 := by
  unfold tailMerge
  repeat' split
  all_goals first
    | exact ⟨rfl, [Event.merge], rfl, by decide⟩
    | exact ⟨rfl, [Event.reset], rfl, by decide⟩
    | exact ⟨rfl, [], (List.append_nil _).symm, by decide⟩

theorem tailSubmodule_frame (a : Args) (acc : Acc) :
    FrameOk acc.1 acc.2.2 (tailSubmodule a acc).2.2 (tailSubmodule a acc).1 := by
  unfold tailSubmodule
  split
  · exact ⟨rfl, [Event.submodule], rfl, by decide⟩
  · exact ⟨rfl, [], (List.append_nil _).symm, by decide⟩

theorem realFetchPhase_frame (a : Args) (w : World) (r : Resolved) (rr : String)
    (baseRev : Option String) (has : Bool) (ff : Option Bool)
    (chg0 : Changes) (cmts0 : List String) (tr0 : List Event) :
    (∀ st tr1, realFetchPhase a w r rr baseRev has ff chg0 cmts0 tr0 = .error (st, tr1) →
      FrameOk chg0 tr0 tr1 st.changes) ∧
    (∀ ff2 chg1 tr1, realFetchPhase a w r rr baseRev has ff chg0 cmts0 tr0 =
        .ok (ff2, chg1, tr1) → FrameOk chg0 tr0 tr1 chg1) := by
  constructor
  · intro st tr1 h
    unfold realFetchPhase at h
    try dsimp only at h
    repeat' split at h
    all_goals first
      | exact Except.noConfusion h
      | (simp only [Except.error.injEq, Prod.mk.injEq] at h
         obtain ⟨h1, h2⟩ := h
         subst h1
         subst h2
         constructor
         · first | rfl | (split <;> rfl)
         · first
           | exact ⟨[], (List.append_nil tr0).symm, by decide⟩
           | exact ⟨[Event.fetch], rfl, by decide⟩)
  · intro ff2 chg1 tr1 h
    unfold realFetchPhase at h
    try dsimp only at h
    repeat' split at h
    all_goals first
      | exact Except.noConfusion h
      | (simp only [Except.ok.injEq, Prod.mk.injEq] at h
         obtain ⟨h0, h1, h2⟩ := h
         subst h1
         subst h2
         constructor
         · first | rfl | (split <;> rfl)
         · first
           | exact ⟨[], (List.append_nil tr0).symm, by decide⟩
           | exact ⟨[Event.fetch], rfl, by decide⟩)

theorem realTail_frame (a : Args) (w : World) (p : Prep) (r : Resolved) (rr : String)
    (baseRev : Option String) (ff : Option Bool) (upstream : PyStr)
    (chg0 : Changes) (cmts0 : List String) (tr0 : List Event) :
    (∀ st tr1, realTail a w p r rr baseRev ff upstream chg0 cmts0 tr0 = .error (st, tr1) →
      FrameOk chg0 tr0 tr1 st.changes) ∧
    (∀ chg cmts tr1, realTail a w p r rr baseRev ff upstream chg0 cmts0 tr0 =
        .ok (chg, cmts, tr1) → FrameOk chg0 tr0 tr1 chg) := by
  constructor
  · intro st tr1 h
    unfold realTail at h
    cases hc : tailCheckout a w (chg0, cmts0, tr0) with
    | error x =>
      rw [hc] at h
      obtain ⟨st2, tr2⟩ := x
      simp only [Except.error.injEq, Prod.mk.injEq] at h
      obtain ⟨h1, h2⟩ := h
      subst h1
      subst h2
      obtain ⟨hch, htr⟩ := (tailCheckout_frame a w (chg0, cmts0, tr0)).1 st2 tr2 hc
      exact ⟨by rw [hch], [], by rw [htr, List.append_nil], by decide⟩
    | ok acc =>
      rw [hc] at h
      exact Except.noConfusion h
  · intro chg cmts tr1 h
    unfold realTail at h
    cases hc : tailCheckout a w (chg0, cmts0, tr0) with
    | error x =>
      rw [hc] at h
      exact Except.noConfusion h
    | ok acc =>
      rw [hc] at h
      simp only [Except.ok.injEq] at h
      have f0 := (tailCheckout_frame a w (chg0, cmts0, tr0)).2 acc hc
      have f1 := tailHardReset_frame r rr ff acc
      have f2 := tailUpstream_frame p r upstream (tailHardReset r rr ff acc)
      have f3 := tailMerge_frame w r rr baseRev ff
        (tailUpstream p r upstream (tailHardReset r rr ff acc))
      have f4 := tailSubmodule_frame a
        (tailMerge w r rr baseRev ff
          (tailUpstream p r upstream (tailHardReset r rr ff acc)))
      have hall := frame_trans (frame_trans (frame_trans (frame_trans f0 f1) f2) f3) f4
      rw [h] at hall
      exact hall

theorem realMain_frame (a : Args) (w : World) (p : Prep) (r : Resolved) (rr : String)
    (baseRev : Option String) (has : Bool) (ff : Option Bool) (upstream : PyStr)
    (chg0 : Changes) (cmts0 : List String) (tr0 : List Event) :
    (∀ st tr1, realMain a w p r rr baseRev has ff upstream chg0 cmts0 tr0 =
        .error (st, tr1) → FrameOk chg0 tr0 tr1 st.changes) ∧
    (∀ chg cmts tr1, realMain a w p r rr baseRev has ff upstream chg0 cmts0 tr0 =
        .ok (chg, cmts, tr1) → FrameOk chg0 tr0 tr1 chg) := by
  constructor
  · intro st tr1 h
    unfold realMain at h
    cases hf : realFetchPhase a w r rr baseRev has ff chg0 cmts0 tr0 with
    | error x =>
      rw [hf] at h
      obtain ⟨st2, tr2⟩ := x
      simp only [Except.error.injEq, Prod.mk.injEq] at h
      obtain ⟨h1, h2⟩ := h
      subst h1
      subst h2
      exact (realFetchPhase_frame a w r rr baseRev has ff chg0 cmts0 tr0).1 st2 tr2 hf
    | ok x =>
      obtain ⟨ff2, chg1, tr2⟩ := x
      rw [hf] at h
      have hA := (realFetchPhase_frame a w r rr baseRev has ff chg0 cmts0 tr0).2
        ff2 chg1 tr2 hf
      have hB := (realTail_frame a w p r rr baseRev ff2 upstream chg1 cmts0 tr2).1
        st tr1 h
      exact frame_trans hA hB
  · intro chg cmts tr1 h
    unfold realMain at h
    cases hf : realFetchPhase a w r rr baseRev has ff chg0 cmts0 tr0 with
    | error x =>
      rw [hf] at h
      exact Except.noConfusion h
    | ok x =>
      obtain ⟨ff2, chg1, tr2⟩ := x
      rw [hf] at h
      have hA := (realFetchPhase_frame a w r rr baseRev has ff chg0 cmts0 tr0).2
        ff2 chg1 tr2 hf
      have hB := (realTail_frame a w p r rr baseRev ff2 upstream chg1 cmts0 tr2).2
        chg cmts tr1 h
      exact frame_trans hA hB

theorem finish_frame (a : Args) (w : World) (p : Prep) (r : Resolved)
    (chg : Changes) (cmts : List String) (tr : List Event) :
    (finishExisting a w p r chg cmts tr).2 = tr ∧
    (finishExisting a w p r chg cmts tr).1.changes.remotes = chg.remotes := by
  unfold finishExisting
  constructor <;> split_ifs <;> rfl

theorem mainFinish_frame (a : Args) (w : World) (p : Prep) (r : Resolved) (rr : String)
    (baseRev : Option String) (has : Bool) (ff : Option Bool) (upstream : PyStr)
    (chg0 : Changes) (cmts0 : List String) (tr0 : List Event) :
    FrameOk chg0 tr0
      (match realMain a w p r rr baseRev has ff upstream chg0 cmts0 tr0 with
       | .error x => x
       | .ok (chg, cmts, tr) => finishExisting a w p r chg cmts tr).2
      (match realMain a w p r rr baseRev has ff upstream chg0 cmts0 tr0 with
       | .error x => x
       | .ok (chg, cmts, tr) => finishExisting a w p r chg cmts tr).1.changes := by
  cases hm : realMain a w p r rr baseRev has ff upstream chg0 cmts0 tr0 with
  | error x =>
    obtain ⟨st, tr⟩ := x
    simpa using (realMain_frame a w p r rr baseRev has ff upstream chg0 cmts0 tr0).1
      st tr hm
  | ok x =>
    obtain ⟨chg, cmts, tr⟩ := x
    have h2 := (realMain_frame a w p r rr baseRev has ff upstream chg0 cmts0 tr0).2
      chg cmts tr hm
    have h3 := finish_frame a w p r chg cmts tr
    obtain ⟨hc, ext, htr, hn⟩ := h2
    exact ⟨h3.2.trans hc, ext, by rw [h3.1, htr], hn⟩

/-- C5: for an existing non-bare repository with a resolved remote revision
(and the pre-fetch fast-forward guard not aborting the run), `latest` issues a
`remote_set` exactly when the stored fetch URL of the named remote differs
from the desired (credential-bearing) URL; when it does, the `remote_set` is
the first mutating operation of the run, and the changes dict records under
the remote-scoped key the redacted old and new URLs. The embedded-credentials
exemption the claim asserts is refuted separately: the comparison uses the raw
desired URL against the stored URL, not redacted forms. -/
theorem c5_amended (a : Args) (w : World) (p : Prep) (rr : String)
    (baseRev bb : Option String) (hasv : Bool)
    (hv : validate a w = .ok p)
    (hrr : (resolveRemoteRev w.remoteRefs a.rev a.remote p.bare).remoteRev = some rr)
    (hroute : (if p.bare then w.hasRefsDir else w.hasDotGit) = true ∨ w.isWorktree = true)
    (hbase : computeBase a w = .ok (baseRev, bb))
    (hhas : computeHas a w (resolveRemoteRev w.remoteRefs a.rev a.remote p.bare) baseRev
      = .ok hasv)
    (hguard : ¬ (preFastForward w hasv baseRev (some rr) = some false ∧
      ¬ a.forceReset = true)) :
    (Event.remoteSet ∈ (latest a false w).2 ↔
      some p.desiredFetchUrl ≠ lookupAssoc w.remotes a.remote) ∧
    (some p.desiredFetchUrl ≠ lookupAssoc w.remotes a.remote →
      (latest a false w).2.head? = some Event.remoteSet ∧
      (latest a false w).1.changes.remotes =
        some (a.remote, (lookupAssoc w.remotes a.remote).map redactHttpBasicAuth,
          p.redactedFetchUrl)) := by
  rw [latest_routes_existing a false w p rr hv hrr hroute]
  revert hrr hhas hguard
  generalize resolveRemoteRev w.remoteRefs a.rev a.remote p.bare = r
  intro hrr hhas hguard
  by_cases hurl : some p.desiredFetchUrl = lookupAssoc w.remotes a.remote
  · have hred : latestExisting a false w p r =
        (match realMain a w p r rr baseRev hasv
            (preFastForward w hasv baseRev (some rr)) (computeUpstream w bb)
            {} [] [] with
         | .error x => x
         | .ok (chg, cmts, tr) => finishExisting a w p r chg cmts tr) := by
      unfold latestExisting
      simp only [hbase, hhas, hrr]
      rw [if_neg hguard]
      simp [hurl]
    rw [hred]
    have hf := mainFinish_frame a w p r rr baseRev hasv
      (preFastForward w hasv baseRev (some rr)) (computeUpstream w bb) {} [] []
    obtain ⟨hc, ext, htr, hn⟩ := hf
    constructor
    · rw [htr]
      simp [hn, hurl]
    · intro hcon
      exact absurd hurl hcon
  · have hred : latestExisting a false w p r =
        (match realMain a w p r rr baseRev hasv
            (preFastForward w hasv baseRev (some rr)) (computeUpstream w bb)
            { remotes := some (a.remote,
                (lookupAssoc w.remotes a.remote).map redactHttpBasicAuth,
                p.redactedFetchUrl) }
            ["Remote \x27" ++ a.remote ++ "\x27 set to " ++ p.redactedFetchUrl]
            [Event.remoteSet] with
         | .error x => x
         | .ok (chg, cmts, tr) => finishExisting a w p r chg cmts tr) := by
      unfold latestExisting
      simp only [hbase, hhas, hrr]
      rw [if_neg hguard]
      simp [hurl]
    rw [hred]
    have hf := mainFinish_frame a w p r rr baseRev hasv
      (preFastForward w hasv baseRev (some rr)) (computeUpstream w bb)
      { remotes := some (a.remote,
          (lookupAssoc w.remotes a.remote).map redactHttpBasicAuth,
          p.redactedFetchUrl) }
      ["Remote \x27" ++ a.remote ++ "\x27 set to " ++ p.redactedFetchUrl]
      [Event.remoteSet]
    obtain ⟨hc, ext, htr, hn⟩ := hf
    refine ⟨?_, fun _ => ⟨?_, ?_⟩⟩
    · rw [htr]
      simp [hurl]
    · rw [htr]
      rfl
    · rw [hc]

/-- Witness for C5: converging `argsCreds` (credentials embedded in the
desired URL) against `worldConv` (stored URL without credentials) issues a
`remote_set` first and records the redacted URLs, because the raw desired URL
differs from the stored one. -/
theorem c5_witness :
    (Event.remoteSet ∈ (latest argsCreds false worldConv).2 ↔
      some "https://u:p@x/r.git" ≠ lookupAssoc worldConv.remotes argsCreds.remote) ∧
    (some "https://u:p@x/r.git" ≠ lookupAssoc worldConv.remotes argsCreds.remote →
      (latest argsCreds false worldConv).2.head? = some Event.remoteSet ∧
      (latest argsCreds false worldConv).1.changes.remotes =
        some (argsCreds.remote,
          (lookupAssoc worldConv.remotes argsCreds.remote).map redactHttpBasicAuth,
          "https://<redacted>@x/r.git")) :=
  c5_amended argsCreds worldConv
    ⟨"https://u:p@x/r.git", "https://<redacted>@x/r.git", false, "--set-upstream-to"⟩
    "bbbbbbbbbb" (some "bbbbbbbbbb") (some "master") true
    rfl rfl (Or.inl rfl) rfl rfl (by decide)

theorem str_assoc (x y z : String) : x ++ y ++ z = x ++ (y ++ z) := by
  cases x with | mk dx =>
  cases y with | mk dy =>
  cases z with | mk dz =>
  show String.mk ((dx ++ dy) ++ dz) = String.mk (dx ++ (dy ++ dz))
  rw [List.append_assoc]

theorem dryShape_neutral (target cm : String) (chg : Changes)
    (h : chg.isEmpty = false) : DryShape target (neutralRet cm chg) := by
  refine ⟨fun _ => h, fun hr => ?_⟩
  exact absurd hr (by simp [neutralRet])

theorem dryShape_uptodateS (target cm : String) (chg : Changes)
    (h : chg.isEmpty = true) : DryShape target (uptodateS target chg cm) := by
  refine ⟨fun hr => ?_, fun _ => ⟨h, startsWithL_append _ _⟩⟩
  exact absurd hr (by simp [uptodateS])

theorem dryShape_fail (target msg : String) (cmts : List String) (chg : Changes) :
    DryShape target (failRet msg cmts chg) := by
  constructor <;> intro hr <;> exact absurd hr (by simp [failRet])

theorem dryShape_final (target cm : String) (chg : Changes) :
    DryShape target
      (if ¬ chg.isEmpty = true then neutralRet cm chg else uptodateS target chg cm) := by
  by_cases h : chg.isEmpty
  · rw [if_neg (by simp [h])]
    exact dryShape_uptodateS _ _ _ h
  · rw [if_pos (by simp_all)]
    exact dryShape_neutral _ _ _ (by simp_all)

theorem urlDryRun_shape (a : Args) (w : World) (p : Prep) (r : Resolved)
    (has : Bool) (ff : Option Bool) (ma : String) (fu : Option String) :
    DryShape a.target (urlDryRun a w p r has ff ma fu) := by
  unfold urlDryRun
  dsimp only
  repeat' split
  all_goals first
    | exact dryShape_final _ _ _
    | exact dryShape_neutral _ _ _ (by simp_all)
    | exact dryShape_uptodateS _ _ _ (by simp_all)

theorem mainDryRun_shape (a : Args) (w : World) (r : Resolved) (rr : String)
    (has : Bool) (ff : Option Bool) (ma : String) (upstream : PyStr) (chg0 : Changes) :
    DryShape a.target (mainDryRun a w r rr has ff ma upstream chg0) := by
  unfold mainDryRun
  dsimp only
  repeat' split
  all_goals first
    | exact dryShape_final _ _ _
    | exact dryShape_neutral _ _ _ (by simp_all)
    | exact dryShape_uptodateS _ _ _ (by simp_all)

theorem bareDry_shape (a : Args) (chg0 : Changes) :
    DryShape a.target (bareDry a chg0) := by
  unfold bareDry
  dsimp only
  repeat' split
  all_goals first
    | exact dryShape_final _ _ _
    | exact dryShape_neutral _ _ _ (by simp_all)
    | exact dryShape_uptodateS _ _ _ (by simp_all)

theorem computeHas_error_result (a : Args) (w : World) (r : Resolved)
    (baseRev : Option String) (st : StateRet)
    (h : computeHas a w r baseRev = .error st) : st.result = RVal.rfalse := by
  unfold computeHas at h
  dsimp only at h
  repeat' (first | split at h | dsimp only at h)
  all_goals first
    | exact Except.noConfusion h
    | (injection h with h2; rw [← h2]; rfl)

theorem revs_equal_none_right (x : Option String) (t : Option RType)
    (h : revs_equal x none t = true) : x = none := by
  cases x with
  | none => rfl
  | some v => exact absurd h (by simp [revs_equal])

theorem validate_error_result (a : Args) (w : World) (st : StateRet)
    (h : validate a w = .error st) : st.result = RVal.rfalse := by
  unfold validate at h
  dsimp only at h
  repeat' (first | split at h | dsimp only at h)
  all_goals first
    | exact Except.noConfusion h
    | (injection h with h2; rw [← h2]; rfl)

theorem dryShape_of_rfalse (target : String) (st : StateRet)
    (h : st.result = RVal.rfalse) : DryShape target st := by
  constructor <;> intro hr <;> rw [h] at hr <;> exact RVal.noConfusion hr

theorem dryShape_uptodateL_nil (target : String) (chg : Changes)
    (h : chg.isEmpty = true) : DryShape target (uptodateL target chg []) := by
  refine ⟨fun hr => absurd hr (by simp [uptodateL]), fun _ => ⟨h, ?_⟩⟩
  exact startsWithL_append ("Repository " ++ target ++ " is up-to-date") ""

theorem latestExisting_dry (a : Args) (w : World) (p : Prep) (r : Resolved) :
    (latestExisting a true w p r).2 = [] ∧
    DryShape a.target (latestExisting a true w p r).1 := by
  unfold latestExisting
  dsimp only
  split
  · exact ⟨rfl, dryShape_fail _ _ _ _⟩
  next h1 =>
    split
    · exact ⟨rfl, dryShape_fail _ _ _ _⟩
    next baseRev baseBranch heqBase =>
      split
      · next st heqHas =>
        exact ⟨rfl, dryShape_of_rfalse _ _ (computeHas_error_result _ _ _ _ _ heqHas)⟩
      next has heqHas =>
        split
        · exact ⟨rfl, dryShape_fail _ _ _ _⟩
        next hff =>
          split
          · exact ⟨rfl, urlDryRun_shape _ _ _ _ _ _ _ _⟩
          next hnu =>
            split
            · next rr heqr =>
              have hu : ¬ (r.remoteRev ≠ none ∧
                  some p.desiredFetchUrl ≠ lookupAssoc w.remotes a.remote) :=
                fun hx => hnu ⟨hx, by trivial⟩
              simp only [if_neg hu]
              split
              · exact ⟨rfl, mainDryRun_shape _ _ _ _ _ _ _ _ _⟩
              next hT => exact absurd (by trivial) hT
            · next heqr =>
              have hu : ¬ (r.remoteRev ≠ none ∧
                  some p.desiredFetchUrl ≠ lookupAssoc w.remotes a.remote) :=
                fun hx => hx.1 heqr
              simp only [if_neg hu]
              split
              · split
                · exact ⟨rfl, bareDry_shape _ _⟩
                next hT => exact absurd (by trivial) hT
              next hpb =>
                have hl : w.localRev = none := by
                  rcases hw : w.localRev with _ | v
                  · rfl
                  · exact absurd ⟨heqr, by simp [hw]⟩ h1
                unfold finishExisting
                rw [heqr]
                split
                · exact ⟨rfl, dryShape_fail _ _ _ _⟩
                next h2 =>
                  have hrev : revs_equal w.finalRev none r.remoteRevType = true := by
                    by_contra hr
                    exact h2 ⟨hpb, hr⟩
                  have hfin : w.finalRev = none := revs_equal_none_right _ _ hrev
                  rw [hl, hfin]
                  split
                  · next h3 => exact absurd rfl h3
                  · exact ⟨rfl, dryShape_uptodateL_nil _ _ rfl⟩

theorem latestClone_dry (a : Args) (w : World) (p : Prep) (r : Resolved) :
    (latestClone a true w p r).2 = [] ∧
    DryShape a.target (latestClone a true w p r).1 := by
  unfold latestClone
  split
  · exact ⟨rfl, dryShape_neutral _ _ _ (by rfl)⟩
  next h1 =>
    split
    · next h2 => exact absurd ⟨h2.1, h2.2, by trivial⟩ h1
    next h2 =>
      split
      · exact ⟨rfl, dryShape_fail _ _ _ _⟩
      · unfold cloneStep
        split
        · exact ⟨rfl, dryShape_neutral _ _ _ (by rfl)⟩
        next hT => exact absurd (by trivial) hT

/-- C2: a dry run of `latest` performs no mutating collaborator operation on
any input, and its return is failure-shaped, a neutral result predicting a
nonempty change-set, or an up-to-date success with an empty change-set whose
comment opens with the up-to-date message. The claim that a dry run only
returns neutral or up-to-date is refuted separately: validation errors,
revision-resolution errors, and the non-fast-forward guard fail (result
`False`) in test mode too. -/
theorem c2_amended (a : Args) (w : World) :
    (latest a true w).2 = [] ∧ DryShape a.target (latest a true w).1 := by
  unfold latest
  split
  · next st heq => exact ⟨rfl, dryShape_of_rfalse _ _ (validate_error_result _ _ _ heq)⟩
  next p heq =>
    unfold latestResolved
    dsimp only
    split
    · exact ⟨rfl, dryShape_fail _ _ _ _⟩
    · repeat' split
      all_goals first
        | exact latestExisting_dry _ _ _ _
        | exact latestClone_dry _ _ _ _

/-- Witness for C2: the diverged world without `force_reset` fails in dry-run
mode with an empty mutation trace. -/
theorem c2_witness :
    (latest argsMaster true worldDivergedHas).2 = [] ∧
    DryShape argsMaster.target (latest argsMaster true worldDivergedHas).1 :=
  c2_amended argsMaster worldDivergedHas

theorem tailCheckout_error_result (a : Args) (w : World) (acc : Acc)
    (x : StateRet × List Event) (h : tailCheckout a w acc = .error x) :
    x.1.result = RVal.rfalse := by
  unfold tailCheckout at h
  repeat' (first | split at h | dsimp only at h)
  all_goals first
    | exact Except.noConfusion h
    | (injection h with h2; rw [← h2]; rfl)

theorem realFetchPhase_error_result (a : Args) (w : World) (r : Resolved) (rr : String)
    (baseRev : Option String) (has : Bool) (ff : Option Bool)
    (chg0 : Changes) (cmts0 : List String) (tr0 : List Event)
    (x : StateRet × List Event)
    (h : realFetchPhase a w r rr baseRev has ff chg0 cmts0 tr0 = .error x) :
    x.1.result = RVal.rfalse := by
  unfold realFetchPhase at h
  repeat' (first | split at h | dsimp only at h)
  all_goals first
    | exact Except.noConfusion h
    | (injection h with h2; rw [← h2]; rfl)

theorem realTail_error_result (a : Args) (w : World) (p : Prep) (r : Resolved)
    (rr : String) (baseRev : Option String) (ff : Option Bool) (upstream : PyStr)
    (chg0 : Changes) (cmts0 : List String) (tr0 : List Event)
    (x : StateRet × List Event)
    (h : realTail a w p r rr baseRev ff upstream chg0 cmts0 tr0 = .error x) :
    x.1.result = RVal.rfalse := by
  unfold realTail at h
  split at h
  · next y heq =>
    injection h with h2
    rw [← h2]
    exact tailCheckout_error_result _ _ _ _ heq
  · exact Except.noConfusion h

theorem realMain_error_result (a : Args) (w : World) (p : Prep) (r : Resolved)
    (rr : String) (baseRev : Option String) (has : Bool) (ff : Option Bool)
    (upstream : PyStr) (chg0 : Changes) (cmts0 : List String) (tr0 : List Event)
    (x : StateRet × List Event)
    (h : realMain a w p r rr baseRev has ff upstream chg0 cmts0 tr0 = .error x) :
    x.1.result = RVal.rfalse := by
  unfold realMain at h
  split at h
  · next y heq =>
    injection h with h2
    rw [← h2]
    exact realFetchPhase_error_result _ _ _ _ _ _ _ _ _ _ _ heq
  · next y heq => exact realTail_error_result _ _ _ _ _ _ _ _ _ _ _ _ h

theorem finish_success (a : Args) (w : World) (p : Prep) (r : Resolved)
    (chg : Changes) (cmts : List String) (tr : List Event)
    (hb : p.bare = false)
    (h : (finishExisting a w p r chg cmts tr).1.result = RVal.rtrue) :
    revs_equal w.finalRev r.remoteRev r.remoteRevType = true := by
  unfold finishExisting at h
  split at h
  · exact absurd h (by simp [failRet])
  next h2 =>
    by_contra hr
    exact h2 ⟨by simp [hb], hr⟩
/-- C10: on an existing non-bare repository with a resolved remote revision,
a real (non-dry-run) `latest` run that returns success leaves the final HEAD
matching the resolved remote revision under the `_revs_equal` comparison of
its kind — exact equality for branches and tags, prefix match for a short
SHA1; every run ending with a mismatching HEAD reports failure. -/
theorem c10_success_matches (a : Args) (w : World) (p : Prep) (rr : String)
    (hv : validate a w = .ok p) (hb : p.bare = false)
    (hrr : (resolveRemoteRev w.remoteRefs a.rev a.remote p.bare).remoteRev = some rr)
    (hroute : (if p.bare then w.hasRefsDir else w.hasDotGit) = true ∨ w.isWorktree = true)
    (hres : (latest a false w).1.result = RVal.rtrue) :
    revs_equal w.finalRev (some rr)
      (resolveRemoteRev w.remoteRefs a.rev a.remote p.bare).remoteRevType = true := by
  rw [latest_routes_existing a false w p rr hv hrr hroute] at hres
  revert hrr hres
  generalize resolveRemoteRev w.remoteRefs a.rev a.remote p.bare = r
  intro hrr hres
  unfold latestExisting at hres
  dsimp only at hres
  split at hres
  · exact absurd hres (by simp [failRet])
  next h1 =>
    split at hres
    · exact absurd hres (by simp [failRet])
    next baseRev bb heqBase =>
      split at hres
      · next st heqHas =>
        have := computeHas_error_result _ _ _ _ _ heqHas
        rw [this] at hres
        exact RVal.noConfusion hres
      next has heqHas =>
        split at hres
        · exact absurd hres (by simp [failRet])
        next hguard =>
          split at hres
          · next hC => exact absurd hC.2 (by simp)
          next hnu =>
            split at hres
            · next rr2 heqr =>
              rw [heqr] at hrr
              injection hrr with hrr2
              split at hres
              · next hT => exact absurd hT (by simp)
              next hT =>
                cases hm : realMain a w p r rr2 baseRev has
                    (preFastForward w has baseRev r.remoteRev) (computeUpstream w bb)
                    (if r.remoteRev ≠ none ∧
                        some p.desiredFetchUrl ≠ lookupAssoc w.remotes a.remote then
                      { remotes := some (a.remote,
                          (lookupAssoc w.remotes a.remote).map redactHttpBasicAuth,
                          p.redactedFetchUrl) }
                    else {})
                    (if r.remoteRev ≠ none ∧
                        some p.desiredFetchUrl ≠ lookupAssoc w.remotes a.remote then
                      ["Remote \x27" ++ a.remote ++ "\x27 set to " ++ p.redactedFetchUrl]
                    else [])
                    (if r.remoteRev ≠ none ∧
                        some p.desiredFetchUrl ≠ lookupAssoc w.remotes a.remote then
                      [Event.remoteSet]
                    else []) with
                | error x =>
                  rw [hm] at hres
                  have := realMain_error_result _ _ _ _ _ _ _ _ _ _ _ _ _ hm
                  rw [this] at hres
                  exact RVal.noConfusion hres
                | ok y =>
                  obtain ⟨chg, cmts, tr⟩ := y
                  rw [hm] at hres
                  have := finish_success a w p r chg cmts tr hb hres
                  rw [heqr, hrr2] at this
                  exact this
            · next heqr =>
              rw [heqr] at hrr
              exact Option.noConfusion hrr

/-- Witness for C10: the converged world returns success, and its final HEAD
equals the resolved remote tip. -/
theorem c10_witness :
    revs_equal worldConv.finalRev (some "bbbbbbbbbb")
      (resolveRemoteRev worldConv.remoteRefs argsMaster.rev argsMaster.remote
        prepMaster.bare).remoteRevType = true :=
  c10_success_matches argsMaster worldConv prepMaster "bbbbbbbbbb" rfl rfl rfl
    (Or.inl rfl) (by decide)

end GitState
